import Mathlib

/-!
Verification of the ingestion-normalization-aggregation pipeline of the
E-Commerce Growth Intelligence Tool: alias-based column mapping
(schema_detection.py), multi-stage cleaning (data_cleaning.py), group-by
aggregation (aggregation.py) and KPI derivation (kpi_engine.py), with the
shared configuration and safe-math helpers (config.py).

Modelling conventions of the shallow embedding:
* Python floats are modelled as rationals, so floating-point-tolerance
  statements become exact equalities over the rationals.
* a pandas cell is a Cell: missing (NaN/NaT), a string, a number or a date;
  pandas timestamps are abstracted to calendar dates, which is exact for the
  whole-day timestamps this pipeline produces.
* a DataFrame is a list of column names plus a list of rows, each row an
  association list keyed by column name; every table reaching the cleaning
  and aggregation stages has unique column names (schema detection
  de-duplicates them), so association rows are a faithful model.
* pandas and Python primitives (drop_duplicates, groupby, str.strip,
  pd.to_numeric, strptime patterns, ...) are embedded by small Lean
  functions reproducing their documented semantics at the call sites the
  pipeline uses.
* Python functions that can raise (KeyError on a missing aggregation
  column, TypeError in round) are embedded with Except String.
-/

namespace Spec2Proof

/-- Calendar date (year, month, day). -/
structure Date where
  y : Nat
  m : Nat
  d : Nat
deriving DecidableEq, Repr

/-- Value of one DataFrame cell. The null constructor models both NaN and
NaT. -/
inductive Cell where
  | null
  | str (s : String)
  | num (q : ℚ)
  | date (d : Date)
deriving DecidableEq, Repr

/-- A row of a mapped table: association list from column name to cell. -/
abbrev Row := List (String × Cell)

/-- DataFrame: named columns plus rows as association lists keyed by column
name. -/
structure DF where
  columns : List String
  rows : List Row
deriving DecidableEq, Repr

/-- Reading a cell of a row by column name; a name the row does not carry
reads as null (rows built by the pipeline carry every declared column). -/
def getCell (r : Row) (c : String) : Cell :=
  match r with
  | [] => Cell.null
  | (k, v) :: rest => if k = c then v else getCell rest c

/-- Writing a cell of a row by column name, appending the binding when the
column is new (pandas column assignment). -/
def setCell (r : Row) (c : String) (v : Cell) : Row :=
  match r with
  | [] => [(c, v)]
  | (k, w) :: rest => if k = c then (c, v) :: rest else (k, w) :: setCell rest c v

/-- The empty DataFrame, as produced by the pd.DataFrame() guard branches. -/
def emptyDF : DF := ⟨[], []⟩

/-- Numeric reading of a cell: the rational payload of num, nothing
otherwise. -/
def cellNum? (c : Cell) : Option ℚ :=
  match c with
  | .num q => some q
  | _ => none

/-! ### Python string primitives -/

/-- Characters the Python str.strip default and the regex class backslash-s
remove. -/
def pyWhitespace (c : Char) : Bool :=
  c = ' ' || c = '\t' || c = '\n' || c = '\r' || c = '\x0b' || c = '\x0c'

/-- Python str.strip(): drop leading and trailing whitespace. -/
def pyStrip (s : String) : String :=
  String.mk (((s.data.dropWhile pyWhitespace).reverse.dropWhile pyWhitespace).reverse)

/-- Python str.lower(), ASCII case folding as used on column names and
categorical values. -/
def pyLower (s : String) : String :=
  String.mk (s.data.map Char.toLower)

/-! ### config.py -/

/-- REQUIRED_COLUMNS of config.py. -/
def REQUIRED_COLUMNS : List String := ["date", "order_id", "customer_id", "revenue"]

/-- OPTIONAL_COLUMNS of config.py. -/
def OPTIONAL_COLUMNS : List String :=
  ["cost", "channel", "region", "category", "device", "marketing_spend"]

/-- COLUMN_ALIASES of config.py as a lookup from standard name to alias
list; the fallback singleton models the dict .get(standard, [standard]) at
the use site. -/
def COLUMN_ALIASES (c : String) : List String :=
  if c = "date" then
    ["date", "order_date", "purchase_date", "transaction_date",
     "created_at", "created_date", "sale_date", "invoice_date",
     "dt", "dates"]
  else if c = "order_id" then
    ["order_id", "orderid", "order_number", "order_no",
     "transaction_id", "txn_id", "invoice_id", "id"]
  else if c = "customer_id" then
    ["customer_id", "customerid", "cust_id", "custid",
     "client_id", "user_id", "userid", "buyer_id"]
  else if c = "revenue" then
    ["revenue", "sales", "amount", "total_amount", "order_value",
     "total_sales", "total_revenue", "sale_amount", "gmv",
     "gross_revenue", "net_revenue", "price", "total_price",
     "order_amount", "transaction_amount"]
  else if c = "cost" then
    ["cost", "total_cost", "cogs", "cost_of_goods",
     "expense", "product_cost"]
  else if c = "channel" then
    ["channel", "source", "traffic_source", "acquisition_channel",
     "utm_source", "marketing_channel", "medium"]
  else if c = "region" then
    ["region", "location", "area", "zone", "city",
     "state", "country", "geography", "geo"]
  else if c = "category" then
    ["category", "product_category", "item_category",
     "department", "product_type", "type", "segment"]
  else if c = "device" then
    ["device", "device_type", "platform", "device_category"]
  else if c = "marketing_spend" then
    ["marketing_spend", "ad_spend", "spend", "marketing_cost",
     "advertising_cost", "campaign_cost", "media_spend"]
  else [c]

/-- CURRENCY_SYMBOLS of config.py. -/
def CURRENCY_SYMBOLS : List Char := ['₹', '$', '€', '£', '¥', ',']

/-- TEXT_COLUMNS of config.py. -/
def TEXT_COLUMNS : List String := ["channel", "region", "category", "device"]

/-- safe_divide of config.py, at its pipeline call sites: both arguments are
numbers and the default is the literal 0.0, so only the zero-denominator
guard is live. -/
def safe_divide (numerator denominator : ℚ) : ℚ :=
  if denominator = 0 then 0 else numerator / denominator

/-- safe_pct_change of config.py for numeric arguments with the default 0.0. -/
def safe_pct_change (newVal oldVal : ℚ) : ℚ :=
  if oldVal = 0 then 0 else ((newVal - oldVal) / oldVal) * 100

/-- safe_pct_change applied to raw cells, as in kpi_engine.py where the
monthly revenue cells are read with iloc: a None old value takes the
default, and a non-numeric operand raises TypeError which the helper
catches, again yielding the default. -/
def safePctChangeCells (newC oldC : Cell) : ℚ :=
  match cellNum? newC, cellNum? oldC with
  | some n, some o => safe_pct_change n o
  | _, _ => 0

/-- Python round(x, 2) on the rational model: scale by 100 and round half to
even (Python uses banker's rounding). -/
def round2 (q : ℚ) : ℚ :=
  let scaled := q * 100
  let fl : ℤ := ⌊scaled⌋
  let frac : ℚ := scaled - fl
  let r : ℤ :=
    if frac < 1/2 then fl
    else if 1/2 < frac then fl + 1
    else if fl % 2 = 0 then fl else fl + 1
  (r : ℚ) / 100

/-! ### schema_detection.py -/

/-- The helper that lowercases, strips and underscores a column name
(Python: str(name).strip().lower().replace(space, underscore)). -/
def _normalize_col_name (s : String) : String :=
  String.mk
    ((((s.data.dropWhile pyWhitespace).reverse.dropWhile pyWhitespace).reverse.map
        Char.toLower).map (fun c => if c = ' ' then '_' else c))

/-- Occurrence counter used by column de-duplication (the Python dict named
seen). -/
def lookupCount (seen : List (String × Nat)) (c : String) : Option Nat :=
  match seen with
  | [] => none
  | (k, n) :: rest => if k = c then some n else lookupCount rest c

/-- Increment the occurrence counter of a column name. -/
def bumpCount (seen : List (String × Nat)) (c : String) : List (String × Nat) :=
  match seen with
  | [] => [(c, 1)]
  | (k, n) :: rest => if k = c then (k, n + 1) :: rest else (k, n) :: bumpCount rest c

/-- Loop body of the column de-duplication helper. -/
def dedupColsGo (seen : List (String × Nat)) : List String → List String
  | [] => []
  | c :: rest =>
    match lookupCount seen c with
    | some n => (c ++ "_" ++ toString (n + 1)) :: dedupColsGo (bumpCount seen c) rest
    | none => c :: dedupColsGo ((c, 0) :: seen) rest

/-- The helper appending numeric suffixes to later occurrences of colliding
column names. -/
def _deduplicate_columns (cols : List String) : List String :=
  dedupColsGo [] cols

/-- All standard columns in binding priority order (required first, then
optional), as iterated by detect_and_map. -/
def allStandardColumns : List String := REQUIRED_COLUMNS ++ OPTIONAL_COLUMNS

/-- Inner alias scan of detect_and_map: the first normalized alias that is a
table column and is not already consumed by the rename map. -/
def bindAlias (cols rm : List String) : List String → Option String
  | [] => none
  | a :: rest =>
    let na := _normalize_col_name a
    if na ∈ cols ∧ na ∉ rm then some na else bindAlias cols rm rest

/-- Outer mapping loop of detect_and_map over the standard columns,
threading the rename map; a binding equal to the standard name is consumed
but, exactly as in the source, not recorded in the rename map. -/
def mapLoop (cols : List String) : List String → List String → List (String × String)
  | [], _ => []
  | std :: rest, rm =>
    match bindAlias cols rm (COLUMN_ALIASES std) with
    | some na => (std, na) :: mapLoop cols rest (if na = std then rm else na :: rm)
    | none => mapLoop cols rest rm

/-- detect_and_map of schema_detection.py at the column level: returns the
renamed column list, the mapping from standard name to source column, and
the missing required columns. The row payload of the frame passes through
unchanged up to the column relabelling, so the column level carries all the
mapping content. -/
def detect_and_map (rawCols : List String) :
    List String × List (String × String) × List String :=
  let cols := _deduplicate_columns (rawCols.map _normalize_col_name)
  let mapping := mapLoop cols allStandardColumns []
  let renamedCols := cols.map (fun c =>
    match mapping.find? (fun p => p.2 == c) with
    | some p => p.1
    | none => c)
  let missing := REQUIRED_COLUMNS.filter (fun c => ¬ (mapping.map Prod.fst).contains c)
  (renamedCols, mapping, missing)

/-! ### Date parsing (DATE_FORMATS of config.py, strptime semantics) -/

/-- Tokens of a strptime pattern: the directives the configured formats use
plus literal characters. -/
inductive FTok where
  | year4
  | month2
  | day2
  | monAbbr
  | monName
  | lit (c : Char)
deriving DecidableEq, Repr

/-- DATE_FORMATS of config.py, tokenized. In source order:
percent-Y-m-d, d-m-Y, m-d-Y, d/m/Y, m/d/Y, Y/m/d, d b Y, d B Y,
b d comma Y, B d comma Y. -/
def DATE_FORMATS : List (List FTok) :=
  [[.year4, .lit '-', .month2, .lit '-', .day2],
   [.day2, .lit '-', .month2, .lit '-', .year4],
   [.month2, .lit '-', .day2, .lit '-', .year4],
   [.day2, .lit '/', .month2, .lit '/', .year4],
   [.month2, .lit '/', .day2, .lit '/', .year4],
   [.year4, .lit '/', .month2, .lit '/', .day2],
   [.day2, .lit ' ', .monAbbr, .lit ' ', .year4],
   [.day2, .lit ' ', .monName, .lit ' ', .year4],
   [.monAbbr, .lit ' ', .day2, .lit ',', .lit ' ', .year4],
   [.monName, .lit ' ', .day2, .lit ',', .lit ' ', .year4]]

/-- The d-m-Y format (second entry of DATE_FORMATS). -/
def fmtDMY : List FTok := [.day2, .lit '-', .month2, .lit '-', .year4]

/-- Take up to n leading digits. -/
def takeDigits : ℕ → List Char → List Char × List Char
  | 0, cs => ([], cs)
  | _ + 1, [] => ([], [])
  | n + 1, c :: cs =>
    if c.isDigit then
      let (ds, rest) := takeDigits n cs
      (c :: ds, rest)
    else ([], c :: cs)

/-- Numeric value of a digit list. -/
def digitsVal (ds : List Char) : ℕ :=
  ds.foldl (fun acc c => 10 * acc + (c.toNat - 48)) 0

/-- Case-insensitively strip a lowercase word from the front of the input. -/
def stripWordCI : List Char → List Char → Option (List Char)
  | [], rest => some rest
  | _ :: _, [] => none
  | a :: ps, c :: rest => if Char.toLower c = a then stripWordCI ps rest else none

/-- Lowercase month abbreviations, position = month number. -/
def monthAbbrevs : List String :=
  ["jan", "feb", "mar", "apr", "may", "jun", "jul", "aug", "sep", "oct", "nov", "dec"]

/-- Lowercase full month names, position = month number. -/
def monthNames : List String :=
  ["january", "february", "march", "april", "may", "june",
   "july", "august", "september", "october", "november", "december"]

/-- Match one of the names case-insensitively at the front of the input,
returning its one-based position. -/
def matchNameGo (cs : List Char) : ℕ → List String → Option (ℕ × List Char)
  | _, [] => none
  | i, n :: rest =>
    match stripWordCI n.data cs with
    | some r => some (i, r)
    | none => matchNameGo cs (i + 1) rest

/-- Partial date accumulated while matching a pattern. -/
structure PD where
  y : ℕ
  m : ℕ
  d : ℕ
deriving DecidableEq, Repr

/-- Match a single pattern token, consuming input (strptime field
semantics: 1-2 digits for month and day, 1-4 digits for the year,
case-insensitive month names). -/
def matchTok : FTok → PD → List Char → Option (PD × List Char)
  | .year4, st, cs =>
    let (ds, rest) := takeDigits 4 cs
    if ds = [] then none else some (⟨digitsVal ds, st.m, st.d⟩, rest)
  | .month2, st, cs =>
    let (ds, rest) := takeDigits 2 cs
    if ds = [] then none else some (⟨st.y, digitsVal ds, st.d⟩, rest)
  | .day2, st, cs =>
    let (ds, rest) := takeDigits 2 cs
    if ds = [] then none else some (⟨st.y, st.m, digitsVal ds⟩, rest)
  | .monAbbr, st, cs =>
    (matchNameGo cs 1 monthAbbrevs).map (fun p => (⟨st.y, p.1, st.d⟩, p.2))
  | .monName, st, cs =>
    (matchNameGo cs 1 monthNames).map (fun p => (⟨st.y, p.1, st.d⟩, p.2))
  | .lit ch, st, cs =>
    match cs with
    | c :: rest => if c = ch then some (st, rest) else none
    | [] => none

/-- Run a whole pattern over the input, requiring full consumption
(pandas passes exact=True). -/
def runToks : List FTok → PD → List Char → Option PD
  | [], st, cs => if cs = [] then some st else none
  | t :: ts, st, cs =>
    match matchTok t st cs with
    | some (st', rest) => runToks ts st' rest
    | none => none

/-- Gregorian leap year test. -/
def isLeapYear (y : ℕ) : Bool :=
  (y % 4 = 0 && y % 100 ≠ 0) || y % 400 = 0

/-- Days in a month. -/
def daysInMonth (y m : ℕ) : ℕ :=
  if m = 2 then (if isLeapYear y then 29 else 28)
  else if m = 4 ∨ m = 6 ∨ m = 9 ∨ m = 11 then 30
  else 31

/-- Calendar validation of a matched date (the datetime constructor check;
the pandas Timestamp range bound is not modelled, the pipeline data stays
well inside it). -/
def mkValidDate (st : PD) : Option Date :=
  if 1 ≤ st.m ∧ st.m ≤ 12 ∧ 1 ≤ st.d ∧ st.d ≤ daysInMonth st.y st.m then
    some ⟨st.y, st.m, st.d⟩
  else none

/-- Parse one cell with one explicit format, as pd.to_datetime(series,
format=fmt, errors=coerce) does per element: only strings can match, and a
failed match coerces to NaT. -/
def parseWithFormat (toks : List FTok) (c : Cell) : Option Date :=
  match c with
  | .str s => (runToks toks ⟨0, 0, 0⟩ s.data).bind mkValidDate
  | _ => none

/-- Number of parsed entries (notna of a converted column). -/
def nnCount (l : List (Option Date)) : ℕ :=
  (l.filter (fun o => o.isSome)).length

/-- Number of unparsed entries (isna of a converted column). -/
def naCount (l : List (Option Date)) : ℕ :=
  (l.filter (fun o => o.isNone)).length

/-- One iteration of the explicit-format retry loop: try one format over
the whole column and keep the attempt only when it parses strictly more
values than the best conversion so far. -/
def retryStep (col : List Cell) (conv : List (Option Date)) (fmt : List FTok) :
    List (Option Date) :=
  let attempt := col.map (parseWithFormat fmt)
  if nnCount attempt > nnCount conv then attempt else conv

/-- The explicit-format retry loop over DATE_FORMATS. -/
def retryFold (col : List Cell) (conv0 : List (Option Date)) : List (Option Date) :=
  DATE_FORMATS.foldl (retryStep col) conv0

/-- The helper _convert_dates of data_cleaning.py, parametrized by the
general-purpose parser gp standing for pd.to_datetime auto-detection: parse
the whole column with gp; when the unparsable fraction exceeds one half,
try every explicit format and keep whichever attempt parses strictly more
values than the best so far; report how many non-null inputs remained
unparsable. The source computes the invalid count once before the retry and
once after; the first assignment is overwritten, so only the final count is
modelled. -/
def _convert_dates (gp : Cell → Option Date) (col : List Cell) : List Cell × ℕ :=
  let converted0 := col.map gp
  let nullsIn := (col.filter (fun c => decide (c = Cell.null))).length
  let converted :=
    if 2 * naCount converted0 > col.length then retryFold col converted0
    else converted0
  let invalid : ℕ := (max 0 ((naCount converted : ℤ) - (nullsIn : ℤ))).toNat
  (converted.map (fun o => match o with | some d => Cell.date d | none => Cell.null), invalid)

/-! ### Numeric cleaning (_clean_numeric of data_cleaning.py) -/

/-- Zero-pad a number to two digits. -/
def pad2 (n : ℕ) : String :=
  if n < 10 then "0" ++ toString n else toString n

/-- Zero-pad a number to four digits. -/
def pad4 (n : ℕ) : String :=
  if n < 10 then "000" ++ toString n
  else if n < 100 then "00" ++ toString n
  else if n < 1000 then "0" ++ toString n
  else toString n

/-- Rendering of a number cell under astype(str). Python float repr is
abstracted: integral values render with a trailing .0 and other rationals
with the default rational rendering; no claim depends on the text of a
non-integral float, and a float repr round-trips through to_numeric and
contains no stripped character either way. -/
def renderNum (q : ℚ) : String :=
  if q.den = 1 then toString q.num ++ ".0" else toString q

/-- Python str() of one cell as pandas astype(str) applies it: NaN renders
nan, a timestamp renders as date plus midnight time. -/
def cellToPyStr : Cell → String
  | .null => "nan"
  | .str s => s
  | .num q => renderNum q
  | .date d => pad4 d.y ++ "-" ++ pad2 d.m ++ "-" ++ pad2 d.d ++ " 00:00:00"

/-- Remove every currency symbol and whitespace character, embedding the
regex character-class replacement of _clean_numeric. -/
def stripCurrencyChars (s : String) : String :=
  String.mk (s.data.filter (fun c => !(c ∈ CURRENCY_SYMBOLS || pyWhitespace c)))

/-- Unsigned decimal literal accepted by pd.to_numeric: digits with an
optional fractional part (exponents are not modelled; the pipeline never
produces them). -/
def parseUnsignedNum (cs : List Char) : Option ℚ :=
  let ipart := cs.takeWhile Char.isDigit
  let rest := cs.dropWhile Char.isDigit
  match rest with
  | '.' :: rest2 =>
    let fpart := rest2.takeWhile Char.isDigit
    let rest3 := rest2.dropWhile Char.isDigit
    if rest3 = [] ∧ (ipart ≠ [] ∨ fpart ≠ []) then
      some ((digitsVal ipart : ℚ) + (digitsVal fpart : ℚ) / ((10 : ℚ) ^ fpart.length))
    else none
  | [] => if ipart ≠ [] then some ((digitsVal ipart : ℚ)) else none
  | _ => none

/-- Signed decimal literal accepted by pd.to_numeric. -/
def parseNumericStr (s : String) : Option ℚ :=
  match s.data with
  | '-' :: rest => (parseUnsignedNum rest).map (fun q => -q)
  | '+' :: rest => parseUnsignedNum rest
  | cs => parseUnsignedNum cs

/-- The per-cell behaviour of _clean_numeric, in source order: astype(str),
strip the currency and whitespace class, replace the sentinels nan, empty,
none and null by missing, then coerce to numeric with failures becoming
missing. A number cell round-trips unchanged (its repr has no stripped
character and reparses to itself); a null cell renders nan and is replaced;
a timestamp renders with a space that stripping removes, leaving text that
fails numeric coercion. -/
def cleanNumericCell : Cell → Cell
  | .null => .null
  | .num q => .num q
  | .date _ => .null
  | .str s =>
    let s2 := stripCurrencyChars s
    if s2 = "nan" ∨ s2 = "" ∨ s2 = "none" ∨ s2 = "null" then .null
    else
      match parseNumericStr s2 with
      | some q => .num q
      | none => .null

/-! ### Cell ordering (pandas groupby sort and sort_values keys) -/

/-- Strict character comparison through code points. -/
def charLt (a b : Char) : Bool := decide (a.toNat < b.toNat)

/-- Lexicographic comparison of character lists. -/
def charListLe : List Char → List Char → Bool
  | [], _ => true
  | _ :: _, [] => false
  | a :: as, b :: bs => if a = b then charListLe as bs else charLt a b

/-- Lexicographic string comparison. -/
def strLeB (s t : String) : Bool := charListLe s.data t.data

/-- Chronological comparison of dates. -/
def dateLeB (a b : Date) : Bool :=
  decide (a.y < b.y) ||
    (decide (a.y = b.y) &&
      (decide (a.m < b.m) || (decide (a.m = b.m) && decide (a.d ≤ b.d))))

/-- Rank separating the cell kinds; within a pipeline key column all cells
share one kind, so the cross-kind order is never observable. -/
def cellRank : Cell → ℕ
  | .null => 0
  | .str _ => 1
  | .num _ => 2
  | .date _ => 3

/-- Total order on cells, embedding the ascending key order pandas uses for
sorted group keys. -/
def cellLe (a b : Cell) : Bool :=
  match a, b with
  | .null, .null => true
  | .str s, .str t => strLeB s t
  | .num p, .num q => decide (p ≤ q)
  | .date u, .date v => dateLeB u v
  | a, b => decide (cellRank a ≤ cellRank b)

/-- The cell order as a Prop relation for List.insertionSort. -/
def cellLeP (a b : Cell) : Prop := cellLe a b = true

instance : DecidableRel cellLeP := fun a b => instDecidableEqBool (cellLe a b) true

/-! ### Aggregation primitives (aggregation.py) -/

/-- Values of one column across the rows. -/
def colVals (df : DF) (c : String) : List Cell :=
  df.rows.map (fun r => getCell r c)

/-- The sorted distinct non-null keys of a groupby column: pandas drops NaN
keys and sorts the remaining distinct keys ascending (sort=True). -/
def groupKeys (vals : List Cell) : List Cell :=
  List.insertionSort cellLeP ((vals.filter (fun c => !(decide (c = Cell.null)))).dedup)

/-- Rows of one group: those whose key column holds the group key. -/
def groupRows (df : DF) (keyCol : String) (k : Cell) : List Row :=
  df.rows.filter (fun r => decide (getCell r keyCol = k))

/-- Pandas sum aggregate: add the numeric cells, skipping nulls (skipna). -/
def sumCol (cs : List Cell) : ℚ :=
  (cs.filterMap cellNum?).sum

/-- Pandas count aggregate: number of non-null cells. -/
def countCol (cs : List Cell) : ℕ :=
  (cs.filter (fun c => !(decide (c = Cell.null)))).length

/-- Pandas nunique aggregate: number of distinct non-null cells. -/
def nuniqueCol (cs : List Cell) : ℕ :=
  ((cs.filter (fun c => !(decide (c = Cell.null)))).dedup).length

/-- Stable insertion for descending sort by a rational key: the new element
goes after every existing element of greater or equal key. -/
def insDescStable (f : Row → ℚ) (a : Row) : List Row → List Row
  | [] => [a]
  | b :: l => if f a ≤ f b then b :: insDescStable f a l else a :: b :: l

/-- Descending sort by a rational key, embedding
sort_values(ascending=False). pandas implements the descending direction
in nargsort by reversing the values, taking an ascending numpy argsort
with the caller's kind, and reversing the resulting indexer, which keeps
equal-key rows in their incoming order exactly when the underlying argsort
is stable. The source passes no kind, and the pandas default quicksort is
documented as not stable, so the tie order of the real pipeline is
unspecified; this embedding fixes the stable outcome. On tie-free inputs
the embedding is exact, because a permutation in strictly descending key
order is unique; no claim is settled through the tie order it fixes. -/
def sortValuesDesc (f : Row → ℚ) (l : List Row) : List Row :=
  l.foldl (fun acc a => insDescStable f a acc) []

/-- Numeric sort key of a summary row (the total_revenue column). -/
def revenueKey (r : Row) : ℚ :=
  (cellNum? (getCell r "total_revenue")).getD 0

/-- Column list of the monthly summary, in the order pandas produces it. -/
def monthlyColumns (hasCost hasSpend : Bool) : List String :=
  ["year_month", "total_revenue", "total_orders", "unique_customers"] ++
    (if hasCost then ["total_cost"] else []) ++
    (if hasSpend then ["total_marketing_spend"] else []) ++
    ["avg_order_value"]

/-- One aggregated monthly row for a group key. -/
def monthlyRow (df : DF) (hasCost hasSpend : Bool) (k : Cell) : Row :=
  let grp := groupRows df "year_month" k
  let tr := sumCol (grp.map (fun r => getCell r "revenue"))
  let tor := countCol (grp.map (fun r => getCell r "order_id"))
  let uc := nuniqueCol (grp.map (fun r => getCell r "customer_id"))
  [("year_month", k), ("total_revenue", Cell.num tr),
   ("total_orders", Cell.num (tor : ℚ)), ("unique_customers", Cell.num (uc : ℚ))] ++
    (if hasCost then
      [("total_cost", Cell.num (sumCol (grp.map (fun r => getCell r "cost"))))]
     else []) ++
    (if hasSpend then
      [("total_marketing_spend",
        Cell.num (sumCol (grp.map (fun r => getCell r "marketing_spend"))))]
     else []) ++
    [("avg_order_value", Cell.num (round2 (safe_divide tr (tor : ℚ))))]

/-- build_monthly_summary of aggregation.py. The first guard mirrors the
explicit emptiness and year_month checks of the source; the second models
the KeyError that .agg raises when a column named by the aggregation dict
is absent. -/
def build_monthly_summary (df : DF) : Except String DF :=
  if "year_month" ∉ df.columns ∨ df.rows = [] then .ok emptyDF
  else if "revenue" ∈ df.columns ∧ "order_id" ∈ df.columns ∧ "customer_id" ∈ df.columns then
    let hasCost := "cost" ∈ df.columns
    let hasSpend := "marketing_spend" ∈ df.columns
    let keys := groupKeys (colVals df "year_month")
    .ok ⟨monthlyColumns hasCost hasSpend, keys.map (monthlyRow df hasCost hasSpend)⟩
  else .error "KeyError"

/-- One aggregated segment row for a group key. -/
def segmentRow (df : DF) (segmentCol : String) (k : Cell) : Row :=
  let grp := groupRows df segmentCol k
  let tr := sumCol (grp.map (fun r => getCell r "revenue"))
  let tor := countCol (grp.map (fun r => getCell r "order_id"))
  let uc := nuniqueCol (grp.map (fun r => getCell r "customer_id"))
  [("segment", k), ("total_revenue", Cell.num tr),
   ("total_orders", Cell.num (tor : ℚ)), ("unique_customers", Cell.num (uc : ℚ)),
   ("avg_order_value", Cell.num (round2 (safe_divide tr (tor : ℚ))))]

/-- build_segment_summary of aggregation.py: group ascending by the segment
column, then sort by total_revenue descending; the KeyError branch models a
missing aggregation column as for the monthly summary. The embedded sort
fixes a stable tie order, which the default quicksort of the source's
sort_values call does not guarantee; every group key is distinct, so ties
arise only between groups of equal total revenue. -/
def build_segment_summary (df : DF) (segmentCol : String) : Except String DF :=
  if segmentCol ∉ df.columns ∨ df.rows = [] then .ok emptyDF
  else if "revenue" ∈ df.columns ∧ "order_id" ∈ df.columns ∧ "customer_id" ∈ df.columns then
    let keys := groupKeys (colVals df segmentCol)
    .ok ⟨["segment", "total_revenue", "total_orders", "unique_customers", "avg_order_value"],
         sortValuesDesc revenueKey (keys.map (segmentRow df segmentCol))⟩
  else .error "KeyError"

/-- One aggregated daily row for a group key. -/
def dailyRow (df : DF) (k : Cell) : Row :=
  let grp := groupRows df "date" k
  [("date", k),
   ("daily_revenue", Cell.num (sumCol (grp.map (fun r => getCell r "revenue")))),
   ("daily_orders", Cell.num ((countCol (grp.map (fun r => getCell r "order_id"))) : ℚ))]

/-- build_daily_summary of aggregation.py. -/
def build_daily_summary (df : DF) : Except String DF :=
  if "date" ∉ df.columns ∨ df.rows = [] then .ok emptyDF
  else if "revenue" ∈ df.columns ∧ "order_id" ∈ df.columns then
    let keys := groupKeys (colVals df "date")
    .ok ⟨["date", "daily_revenue", "daily_orders"], keys.map (dailyRow df)⟩
  else .error "KeyError"

/-! ### Cleaning pipeline (clean of data_cleaning.py) -/

/-- Counters reported by clean. -/
structure CleaningReport where
  original_rows : ℕ
  duplicates_removed : ℕ
  null_rows_dropped : ℕ
  invalid_dates : ℕ
  invalid_revenue : ℕ
  negative_revenue : ℕ
  text_normalized : ℕ
  final_rows : ℕ
deriving DecidableEq, Repr

/-- Inner loop of drop_duplicates keyed by a cell: keep a row when its key
was not seen among earlier rows (keep=first; pandas also treats NaN keys as
equal to each other here). -/
def dropDupGo (key : Row → Cell) (seen : List Cell) : List Row → List Row
  | [] => []
  | r :: rest =>
    if key r ∈ seen then dropDupGo key seen rest
    else r :: dropDupGo key (key r :: seen) rest

/-- pandas drop_duplicates(subset, keep=first) on one key column. -/
def dropDuplicatesOn (key : Row → Cell) (rows : List Row) : List Row :=
  dropDupGo key [] rows

/-- Step 1 of clean: remove duplicate order ids, reporting how many rows
disappeared. -/
def dropDupStep (df : DF) : DF × ℕ :=
  if "order_id" ∈ df.columns then
    let rows := dropDuplicatesOn (fun r => getCell r "order_id") df.rows
    (⟨df.columns, rows⟩, df.rows.length - rows.length)
  else (df, 0)

/-- Step 2 of clean: convert the date column through _convert_dates, then
drop the rows whose date is missing; returns the new frame, the invalid
date count, and the dropped null-date count. -/
def dateStep (gp : Cell → Option Date) (df : DF) : DF × ℕ × ℕ :=
  if "date" ∈ df.columns then
    let conv := _convert_dates gp (colVals df "date")
    let rows1 := (df.rows.zip conv.1).map (fun p => setCell p.1 "date" p.2)
    let nullDates := (rows1.filter (fun r => decide (getCell r "date" = Cell.null))).length
    let rows2 := rows1.filter (fun r => !(decide (getCell r "date" = Cell.null)))
    (⟨df.columns, rows2⟩, conv.2, nullDates)
  else (df, 0, 0)

/-- Columns the numeric pass touches when present. -/
def numericCols : List String := ["revenue", "cost", "marketing_spend"]

/-- Step 3 of clean: numeric-coerce revenue, cost and marketing_spend where
present (the source iterates the columns; per-cell independence makes the
per-row fold over the same columns equivalent), then count missing and
negative revenue. -/
def numericStep (df : DF) : DF × ℕ × ℕ :=
  let cols := numericCols.filter (fun c => c ∈ df.columns)
  let rows := df.rows.map (fun r =>
    cols.foldl (fun r c => setCell r c (cleanNumericCell (getCell r c))) r)
  let invalidRev :=
    if "revenue" ∈ df.columns then
      (rows.filter (fun r => decide (getCell r "revenue" = Cell.null))).length
    else 0
  let negRev :=
    if "revenue" ∈ df.columns then
      (rows.filter (fun r =>
        match getCell r "revenue" with
        | .num q => decide (q < 0)
        | _ => false)).length
    else 0
  (⟨df.columns, rows⟩, invalidRev, negRev)

/-- Step 4 of clean: drop the rows whose present required fields are all
null; the guard reproduces the source check that skips the drop when no
required column is present. -/
def dropNullRequiredStep (df : DF) : DF × ℕ :=
  let reqPresent := REQUIRED_COLUMNS.filter (fun c => c ∈ df.columns)
  if reqPresent = [] then (df, 0)
  else
    let rows := df.rows.filter (fun r =>
      !(reqPresent.all (fun c => decide (getCell r c = Cell.null))))
    (⟨df.columns, rows⟩, df.rows.length - rows.length)

/-- Step 5 of clean: fill null cost and marketing_spend with 0. -/
def fillOptionalStep (df : DF) : DF :=
  let cols := ["cost", "marketing_spend"].filter (fun c => c ∈ df.columns)
  ⟨df.columns, df.rows.map (fun r =>
    cols.foldl (fun r c =>
      setCell r c (if getCell r c = Cell.null then Cell.num 0 else getCell r c)) r)⟩

/-- The per-cell behaviour of text normalization, in source order:
astype(str), str.strip, str.lower, then replace the exact string nan
(produced by astype from missing values) with unknown. -/
def normalizeTextCell (c : Cell) : Cell :=
  let s := pyLower (pyStrip (cellToPyStr c))
  if s = "nan" then .str "unknown" else .str s

/-- Step 6 of clean: normalize every configured text column that is
present, counting how many columns were touched. -/
def textStep (df : DF) : DF × ℕ :=
  let cols := TEXT_COLUMNS.filter (fun c => c ∈ df.columns)
  (⟨df.columns, df.rows.map (fun r =>
    cols.foldl (fun r c => setCell r c (normalizeTextCell (getCell r c))) r)⟩,
   cols.length)

/-- Year-month bucket of a date cell, dt.to_period(M).astype(str). -/
def ymCell : Cell → Cell
  | .date d => .str (pad4 d.y ++ "-" ++ pad2 d.m)
  | _ => .null

/-- Step 7 of clean: derive the year_month column from the date column. -/
def yearMonthStep (df : DF) : DF :=
  if "date" ∈ df.columns then
    ⟨df.columns ++ (if "year_month" ∈ df.columns then [] else ["year_month"]),
     df.rows.map (fun r => setCell r "year_month" (ymCell (getCell r "date")))⟩
  else df

/-- The frame state after steps 1 through 5, named so the text
normalization pass can be stated against its input. -/
def cleanThroughStep5 (gp : Cell → Option Date) (df : DF) : DF :=
  fillOptionalStep (dropNullRequiredStep (numericStep (dateStep gp (dropDupStep df).1).1).1).1

/-- clean of data_cleaning.py, parametrized by the general-purpose date
parser: the eight passes in source order, assembling the report counters
exactly as the source does (step 8, reset_index, is invisible in the list
model). -/
def clean (gp : Cell → Option Date) (df : DF) : DF × CleaningReport :=
  let originalRows := df.rows.length
  let s1 := dropDupStep df
  let s2 := dateStep gp s1.1
  let s3 := numericStep s2.1
  let s4 := dropNullRequiredStep s3.1
  let s5 := fillOptionalStep s4.1
  let s6 := textStep s5
  let s7 := yearMonthStep s6.1
  (s7, ⟨originalRows, s1.2, s2.2.2 + s4.2, s2.2.1, s3.2.1, s3.2.2, s6.2, s7.rows.length⟩)

/-! ### KPI engine (kpi_engine.py) -/

/-- The KPI mapping: one field per key the source dict carries; an Option
field is null exactly when the source stores None. The latest_month field
holds a cell because the source stores either a year_month value or the
label N/A. -/
structure KPIs where
  total_revenue : ℚ
  total_orders : ℕ
  unique_customers : ℕ
  avg_order_value : ℚ
  revenue_per_customer : ℚ
  latest_month : Cell
  latest_month_revenue : ℚ
  mom_revenue_growth : Option ℚ
  total_cost : Option ℚ
  gross_margin : Option ℚ
  total_marketing_spend : Option ℚ
  roas : Option ℚ
  total_months : ℕ
  orders_per_customer : ℚ
deriving DecidableEq, Repr

/-- The helper _empty_kpis of kpi_engine.py: every key present with its
zero or None default. -/
def _empty_kpis : KPIs :=
  ⟨0, 0, 0, 0, 0, Cell.str "N/A", 0, none, none, none, none, none, 0, 0⟩

/-- compute_kpis of kpi_engine.py. Empty input short-circuits to the
defaults; afterwards the source reads the revenue column of the clean
table and the year_month and total_revenue columns of the last monthly
rows unconditionally, so their absence (or a non-numeric latest revenue
reaching round) is a raised error, modelled with Except. -/
def compute_kpis (cleanDf monthlyDf : DF) : Except String KPIs :=
  if cleanDf.rows = [] ∨ monthlyDf.rows = [] then .ok _empty_kpis
  else if "revenue" ∉ cleanDf.columns then .error "KeyError"
  else if "year_month" ∉ monthlyDf.columns ∨ "total_revenue" ∉ monthlyDf.columns then
    .error "KeyError"
  else
    match monthlyDf.rows.reverse with
    | [] => .ok _empty_kpis
    | lastRow :: restRev =>
      match cellNum? (getCell lastRow "total_revenue") with
      | none => .error "TypeError"
      | some lastRev =>
        let totalRevenue := round2 (sumCol (colVals cleanDf "revenue"))
        let totalOrders : ℕ :=
          if "order_id" ∈ cleanDf.columns then nuniqueCol (colVals cleanDf "order_id")
          else cleanDf.rows.length
        let uniqueCustomers : ℕ :=
          if "customer_id" ∈ cleanDf.columns then nuniqueCol (colVals cleanDf "customer_id")
          else 0
        let mom : Option ℚ :=
          match restRev with
          | prevRow :: _ =>
            some (round2 (safePctChangeCells (getCell lastRow "total_revenue")
              (getCell prevRow "total_revenue")))
          | [] => none
        let totalCost? : Option ℚ :=
          if "cost" ∈ cleanDf.columns then some (sumCol (colVals cleanDf "cost")) else none
        let spend? : Option ℚ :=
          if "marketing_spend" ∈ cleanDf.columns then
            some (round2 (sumCol (colVals cleanDf "marketing_spend")))
          else none
        .ok ⟨totalRevenue,
             totalOrders,
             uniqueCustomers,
             round2 (safe_divide totalRevenue (totalOrders : ℚ)),
             round2 (safe_divide totalRevenue (uniqueCustomers : ℚ)),
             getCell lastRow "year_month",
             round2 lastRev,
             mom,
             totalCost?.map round2,
             totalCost?.map (fun tc =>
               round2 (safe_divide (totalRevenue - tc) totalRevenue * 100)),
             spend?,
             spend?.map (fun ts => round2 (safe_divide totalRevenue ts)),
             monthlyDf.rows.length,
             round2 (safe_divide (totalOrders : ℚ) (uniqueCustomers : ℚ))⟩

/-! ### Concrete tables used by witnesses and counterexamples -/

/-- A general parser that never parses, exercising the retry path. -/
def gpNone : Cell → Option Date := fun _ => none

/-- A general parser recognizing ISO dates only. -/
def gpISO : Cell → Option Date :=
  parseWithFormat [.year4, .lit '-', .month2, .lit '-', .day2]

/-- A one-row table carrying year_month but no aggregation columns. -/
def dfMissingAgg : DF := ⟨["year_month"], [[("year_month", Cell.str "2021-01")]]⟩

/-- A one-row table carrying only a date column. -/
def dfDateOnly : DF := ⟨["date"], [[("date", Cell.str "2024-01-01")]]⟩

/-- A zero-row table with the clean-table columns. -/
def dfEmptyCols : DF :=
  ⟨["date", "order_id", "customer_id", "revenue", "year_month"], []⟩

/-- A nonempty monthly-shaped table, for the empty-clean-table KPI path. -/
def dfOneMonth : DF :=
  ⟨["year_month", "total_revenue"],
   [[("year_month", Cell.str "2024-01"), ("total_revenue", Cell.num 5)]]⟩

/-- A date column uniformly formatted day-month-year. -/
def colDMY : List Cell :=
  [Cell.str "13-05-2021", Cell.str "14-05-2021", Cell.str "15-05-2021"]

/-- A clean table with two months of revenue 1000 and 1200. -/
def dfTwoMonths : DF :=
  ⟨["year_month", "revenue", "order_id", "customer_id"],
   [[("year_month", Cell.str "2024-01"), ("revenue", Cell.num 1000),
     ("order_id", Cell.str "a"), ("customer_id", Cell.str "c1")],
    [("year_month", Cell.str "2024-02"), ("revenue", Cell.num 1200),
     ("order_id", Cell.str "b"), ("customer_id", Cell.str "c2")]]⟩

/-- The monthly summary of dfTwoMonths. -/
def mdfTwoMonths : DF :=
  ⟨["year_month", "total_revenue", "total_orders", "unique_customers", "avg_order_value"],
   [[("year_month", Cell.str "2024-01"), ("total_revenue", Cell.num 1000),
     ("total_orders", Cell.num 1), ("unique_customers", Cell.num 1),
     ("avg_order_value", Cell.num 1000)],
    [("year_month", Cell.str "2024-02"), ("total_revenue", Cell.num 1200),
     ("total_orders", Cell.num 1), ("unique_customers", Cell.num 1),
     ("avg_order_value", Cell.num 1200)]]⟩

/-- A clean table whose first month has zero revenue. -/
def dfZeroBase : DF :=
  ⟨["year_month", "revenue", "order_id", "customer_id"],
   [[("year_month", Cell.str "2024-01"), ("revenue", Cell.num 0),
     ("order_id", Cell.str "a"), ("customer_id", Cell.str "c1")],
    [("year_month", Cell.str "2024-02"), ("revenue", Cell.num 500),
     ("order_id", Cell.str "b"), ("customer_id", Cell.str "c2")]]⟩

/-- A table whose channel column holds an empty string and the sentinel
texts None and null. -/
def dfText : DF :=
  ⟨["channel"],
   [[("channel", Cell.str "")],
    [("channel", Cell.str "None")],
    [("channel", Cell.str "null")]]⟩

/-- A table with two rows sharing an order id but different revenue. -/
def dfDup : DF :=
  ⟨["order_id", "revenue"],
   [[("order_id", Cell.str "X"), ("revenue", Cell.num 100)],
    [("order_id", Cell.str "X"), ("revenue", Cell.num 200)]]⟩

/-- A clean-shaped table with two months, one null revenue and a duplicate
month bucket, for the conservation witness. -/
def dfConserve : DF :=
  ⟨["year_month", "revenue", "order_id", "customer_id"],
   [[("year_month", Cell.str "2024-01"), ("revenue", Cell.num 100),
     ("order_id", Cell.str "a"), ("customer_id", Cell.str "c1")],
    [("year_month", Cell.str "2024-01"), ("revenue", Cell.null),
     ("order_id", Cell.str "b"), ("customer_id", Cell.str "c2")],
    [("year_month", Cell.str "2024-02"), ("revenue", Cell.num 50),
     ("order_id", Cell.str "c"), ("customer_id", Cell.str "c1")]]⟩

/-- The monthly summary of dfZeroBase. -/
def mdfZeroBase : DF :=
  ⟨["year_month", "total_revenue", "total_orders", "unique_customers", "avg_order_value"],
   [[("year_month", Cell.str "2024-01"), ("total_revenue", Cell.num 0),
     ("total_orders", Cell.num 1), ("unique_customers", Cell.num 1),
     ("avg_order_value", Cell.num 0)],
    [("year_month", Cell.str "2024-02"), ("total_revenue", Cell.num 500),
     ("total_orders", Cell.num 1), ("unique_customers", Cell.num 1),
     ("avg_order_value", Cell.num 500)]]⟩

end Spec2Proof

namespace Spec2Proof

deriving instance DecidableEq for Except

/-! ### Guard helpers shared by the emptiness claims -/

/-- Helper: the monthly guard branch. -/
theorem monthly_guard (df : DF) (h : "year_month" ∉ df.columns ∨ df.rows = []) :
    build_monthly_summary df = .ok emptyDF := by
  unfold build_monthly_summary
  rw [if_pos h]

/-- Helper: the segment guard branch. -/
theorem segment_guard (df : DF) (segc : String) (h : segc ∉ df.columns ∨ df.rows = []) :
    build_segment_summary df segc = .ok emptyDF := by
  unfold build_segment_summary
  rw [if_pos h]

/-- Helper: the daily guard branch. -/
theorem daily_guard (df : DF) (h : "date" ∉ df.columns ∨ df.rows = []) :
    build_daily_summary df = .ok emptyDF := by
  unfold build_daily_summary
  rw [if_pos h]

/-- Helper: the KPI empty-input branch. -/
theorem kpis_empty_guard (df mdf : DF) (h : df.rows = [] ∨ mdf.rows = []) :
    compute_kpis df mdf = .ok _empty_kpis := by
  unfold compute_kpis
  rw [if_pos h]

/-- Helper: the monthly KeyError branch, taken whenever the guard passes
but a column named by the aggregation dict is absent. -/
theorem monthly_keyerror (df : DF) (hg : "year_month" ∈ df.columns)
    (hne : df.rows ≠ [])
    (hmiss : ¬("revenue" ∈ df.columns ∧ "order_id" ∈ df.columns ∧
      "customer_id" ∈ df.columns)) :
    build_monthly_summary df = .error "KeyError" := by
  unfold build_monthly_summary
  rw [if_neg (by push_neg; exact ⟨hg, hne⟩), if_neg hmiss]

/-- Helper: the segment KeyError branch. -/
theorem segment_keyerror (df : DF) (segc : String) (hg : segc ∈ df.columns)
    (hne : df.rows ≠ [])
    (hmiss : ¬("revenue" ∈ df.columns ∧ "order_id" ∈ df.columns ∧
      "customer_id" ∈ df.columns)) :
    build_segment_summary df segc = .error "KeyError" := by
  unfold build_segment_summary
  rw [if_neg (by push_neg; exact ⟨hg, hne⟩), if_neg hmiss]

/-- Helper: the daily KeyError branch. -/
theorem daily_keyerror (df : DF) (hg : "date" ∈ df.columns)
    (hne : df.rows ≠ [])
    (hmiss : ¬("revenue" ∈ df.columns ∧ "order_id" ∈ df.columns)) :
    build_daily_summary df = .error "KeyError" := by
  unfold build_daily_summary
  rw [if_neg (by push_neg; exact ⟨hg, hne⟩), if_neg hmiss]

/-! ### Claim C2 -/

/-- C2 (corrected): a table that has a year_month column and a row but
lacks the revenue, order_id and customer_id columns the aggregation dict
names makes build_monthly_summary raise a KeyError instead of returning an
empty result. -/
theorem aggregations_missing_column_counterexample :
    build_monthly_summary dfMissingAgg = .error "KeyError" := by decide

/-- C2 (amended): each of the three aggregations returns an empty result,
not an error, whenever its input is empty or its grouping column
(year_month, the chosen segment column, date) is absent; but whenever the
grouping column is present and the table is non-empty while a column its
aggregation dict names (revenue, order_id or customer_id for the monthly
and segment summaries; revenue or order_id for the daily summary) is
missing, the aggregation raises a KeyError instead of returning an empty
result. -/
theorem aggregations_empty_guard (df : DF) (segc : String) :
    (("year_month" ∉ df.columns ∨ df.rows = []) →
      build_monthly_summary df = .ok emptyDF) ∧
    ((segc ∉ df.columns ∨ df.rows = []) →
      build_segment_summary df segc = .ok emptyDF) ∧
    (("date" ∉ df.columns ∨ df.rows = []) →
      build_daily_summary df = .ok emptyDF) ∧
    ("year_month" ∈ df.columns → df.rows ≠ [] →
      ¬("revenue" ∈ df.columns ∧ "order_id" ∈ df.columns ∧
        "customer_id" ∈ df.columns) →
      build_monthly_summary df = .error "KeyError") ∧
    (segc ∈ df.columns → df.rows ≠ [] →
      ¬("revenue" ∈ df.columns ∧ "order_id" ∈ df.columns ∧
        "customer_id" ∈ df.columns) →
      build_segment_summary df segc = .error "KeyError") ∧
    ("date" ∈ df.columns → df.rows ≠ [] →
      ¬("revenue" ∈ df.columns ∧ "order_id" ∈ df.columns) →
      build_daily_summary df = .error "KeyError") :=
  ⟨monthly_guard df, segment_guard df segc, daily_guard df,
   monthly_keyerror df, segment_keyerror df segc, daily_keyerror df⟩

/-- Witness for the amended C2: the empty-result conjuncts at a concrete
empty table and a concrete missing grouping column, and the KeyError
conjuncts at concrete non-empty tables carrying only their grouping
column. -/
theorem aggregations_empty_guard_witness :
    build_monthly_summary dfEmptyCols = .ok emptyDF ∧
    build_segment_summary dfEmptyCols "channel" = .ok emptyDF ∧
    build_daily_summary dfEmptyCols = .ok emptyDF ∧
    build_monthly_summary dfMissingAgg = .error "KeyError" ∧
    build_segment_summary dfText "channel" = .error "KeyError" ∧
    build_daily_summary dfDateOnly = .error "KeyError" := by
  refine ⟨?_, ?_, ?_, ?_, ?_, ?_⟩
  · exact (aggregations_empty_guard dfEmptyCols "channel").1 (Or.inr rfl)
  · exact (aggregations_empty_guard dfEmptyCols "channel").2.1 (by decide)
  · exact (aggregations_empty_guard dfEmptyCols "channel").2.2.1 (Or.inr rfl)
  · exact (aggregations_empty_guard dfMissingAgg "channel").2.2.2.1
      (by decide) (by decide) (by decide)
  · exact (aggregations_empty_guard dfText "channel").2.2.2.2.1
      (by decide) (by decide) (by decide)
  · exact (aggregations_empty_guard dfDateOnly "channel").2.2.2.2.2
      (by decide) (by decide) (by decide)

/-! ### Claim C3 -/

/-- Helper: what a successful alias scan guarantees. -/
theorem bindAlias_some {cols rm : List String} {al : List String} {na : String}
    (h : bindAlias cols rm al = some na) :
    na ∈ al.map _normalize_col_name ∧ na ∈ cols ∧ na ∉ rm := by
  induction al with
  | nil => simp [bindAlias] at h
  | cons a rest ih =>
    simp only [bindAlias] at h
    split at h
    · cases h
      next hc => exact ⟨by simp, hc.1, hc.2⟩
    · obtain ⟨h1, h2, h3⟩ := ih h
      exact ⟨by simp only [List.map_cons, List.mem_cons]; right; exact h1, h2, h3⟩

/-- Helper: what membership of an entry in the mapping loop guarantees. -/
theorem mapLoop_mem {cols : List String} :
    ∀ {fields rm : List String} {std na : String},
      (std, na) ∈ mapLoop cols fields rm →
      na ∈ (COLUMN_ALIASES std).map _normalize_col_name ∧ na ∈ cols ∧
        na ∉ rm ∧ std ∈ fields := by
  intro fields
  induction fields with
  | nil => intro rm std na h; simp [mapLoop] at h
  | cons f rest ih =>
    intro rm std na h
    simp only [mapLoop] at h
    cases hb : bindAlias cols rm (COLUMN_ALIASES f) with
    | none =>
      rw [hb] at h
      obtain ⟨h1, h2, h3, h4⟩ := ih h
      exact ⟨h1, h2, h3, List.mem_cons_of_mem _ h4⟩
    | some nb =>
      rw [hb] at h
      rcases List.mem_cons.mp h with heq | hmem
      · obtain ⟨rfl, rfl⟩ := Prod.mk.injEq .. ▸ And.intro (congrArg Prod.fst heq) (congrArg Prod.snd heq)
        obtain ⟨h1, h2, h3⟩ := bindAlias_some hb
        exact ⟨h1, h2, h3, List.mem_cons_self _ _⟩
      · obtain ⟨h1, h2, h3, h4⟩ := ih hmem
        refine ⟨h1, h2, ?_, List.mem_cons_of_mem _ h4⟩
        intro hin
        apply h3
        by_cases hne : nb = f
        · rw [if_pos hne]; exact hin
        · rw [if_neg hne]; exact List.mem_cons_of_mem _ hin

/-- Helper: the bound standard columns come from the field list in order. -/
theorem mapLoop_fst_sublist (cols : List String) :
    ∀ (fields rm : List String),
      ((mapLoop cols fields rm).map Prod.fst).Sublist fields := by
  intro fields
  induction fields with
  | nil => intro rm; simp [mapLoop]
  | cons f rest ih =>
    intro rm
    simp only [mapLoop]
    cases hb : bindAlias cols rm (COLUMN_ALIASES f) with
    | none => exact (ih rm).cons f
    | some nb => exact (ih _).cons₂ f

/-- Helper: no two entries of the mapping loop consume the same source
column, given that no standard column name occurs among the normalized
aliases of a standard column listed after it. -/
theorem mapLoop_snd_pairwise {cols : List String} :
    ∀ {fields rm : List String},
      fields.Pairwise (fun s₁ s₂ => s₁ ∉ (COLUMN_ALIASES s₂).map _normalize_col_name) →
      (mapLoop cols fields rm).Pairwise (fun p q => p.2 ≠ q.2) := by
  intro fields
  induction fields with
  | nil => intro rm _; simp [mapLoop]
  | cons f rest ih =>
    intro rm hpw
    obtain ⟨hf, hrest⟩ := List.pairwise_cons.mp hpw
    simp only [mapLoop]
    cases hb : bindAlias cols rm (COLUMN_ALIASES f) with
    | none => exact ih hrest
    | some nb =>
      refine List.pairwise_cons.mpr ⟨?_, ih hrest⟩
      rintro ⟨s₂, c₂⟩ hmem hc
      obtain ⟨h1, _, h3, h4⟩ := mapLoop_mem hmem
      simp only at hc
      by_cases hne : nb = f
      · subst hne
        rw [← hc] at h1
        exact hf s₂ h4 h1
      · rw [if_neg hne] at h3
        exact h3 (hc ▸ List.mem_cons_self _ _)

/-- Helper: the configuration fact the no-double-binding invariant rests
on: no standard column name is itself a normalized alias of a standard
column that is scanned later. -/
theorem config_no_cross_alias :
    allStandardColumns.Pairwise
      (fun s₁ s₂ => s₁ ∉ (COLUMN_ALIASES s₂).map _normalize_col_name) := by decide

/-- Helper: the standard columns are distinct. -/
theorem allStandardColumns_nodup : allStandardColumns.Nodup := by decide

/-- C3: for every list of raw column names, the mapping built by
detect_and_map binds each canonical field at most once, consumes each
source column for at most one canonical field, and hence the number of
distinct source columns consumed never exceeds the number of canonical
fields resolved. -/
theorem detect_and_map_no_double_binding (rawCols : List String) :
    (((detect_and_map rawCols).2.1.map Prod.fst).Nodup ∧
     ((detect_and_map rawCols).2.1.map Prod.snd).Nodup) ∧
    ((detect_and_map rawCols).2.1.map Prod.snd).dedup.length ≤
      ((detect_and_map rawCols).2.1.map Prod.fst).length := by
  have hfst : ((detect_and_map rawCols).2.1.map Prod.fst).Nodup := by
    simp only [detect_and_map]
    exact (mapLoop_fst_sublist _ _ _).nodup allStandardColumns_nodup
  have hsnd : ((detect_and_map rawCols).2.1.map Prod.snd).Nodup := by
    simp only [detect_and_map]
    exact List.pairwise_map.mpr (mapLoop_snd_pairwise config_no_cross_alias)
  refine ⟨⟨hfst, hsnd⟩, ?_⟩
  rw [hsnd.dedup]
  simp

/-! ### Claim C9 -/

/-- Helper: counts of parsed and unparsed entries partition the column. -/
theorem na_add_nn (l : List (Option Date)) : naCount l + nnCount l = l.length := by
  induction l with
  | nil => rfl
  | cons o rest ih =>
    cases o <;> simp [naCount, nnCount, List.filter_cons] at ih ⊢ <;> omega

/-- Helper: the parsed count never exceeds the column length. -/
theorem nn_le_length (l : List (Option Date)) : nnCount l ≤ l.length :=
  List.length_filter_le _ _

/-- Helper: one keep-the-best step of the retry loop. -/
theorem retryStep_nn (col : List Cell) (conv : List (Option Date)) (fmt : List FTok) :
    nnCount conv ≤ nnCount (retryStep col conv fmt) := by
  simp only [retryStep]
  split
  · omega
  · exact le_refl _

/-- Helper: one step parses at least as much as its own format. -/
theorem retryStep_nn_ge (col : List Cell) (conv : List (Option Date)) (fmt : List FTok) :
    nnCount (col.map (parseWithFormat fmt)) ≤ nnCount (retryStep col conv fmt) := by
  simp only [retryStep]
  split
  · exact le_refl _
  · omega

/-- Helper: the retry fold never loses parsed entries. -/
theorem retryFoldGen_nn_mono (col : List Cell) :
    ∀ (fmts : List (List FTok)) (conv : List (Option Date)),
      nnCount conv ≤ nnCount (fmts.foldl (retryStep col) conv) := by
  intro fmts
  induction fmts with
  | nil => intro conv; exact le_refl _
  | cons fmt rest ih =>
    intro conv
    exact le_trans (retryStep_nn col conv fmt) (ih _)

/-- Helper: the retry fold parses at least as much as any single listed
format. -/
theorem retryFoldGen_nn_ge (col : List Cell) :
    ∀ (fmts : List (List FTok)) (conv : List (Option Date)) (fmt : List FTok),
      fmt ∈ fmts →
      nnCount (col.map (parseWithFormat fmt)) ≤
        nnCount (fmts.foldl (retryStep col) conv) := by
  intro fmts
  induction fmts with
  | nil => intro conv fmt h; cases h
  | cons f rest ih =>
    intro conv fmt h
    rcases List.mem_cons.mp h with rfl | hmem
    · exact le_trans (retryStep_nn_ge col conv fmt) (retryFoldGen_nn_mono col rest _)
    · exact ih _ fmt hmem

/-- Helper: the retry fold preserves the column length. -/
theorem retryFoldGen_length (col : List Cell) :
    ∀ (fmts : List (List FTok)) (conv : List (Option Date)),
      conv.length = col.length →
      (fmts.foldl (retryStep col) conv).length = col.length := by
  intro fmts
  induction fmts with
  | nil => intro conv h; exact h
  | cons f rest ih =>
    intro conv h
    apply ih
    simp only [retryStep]
    split
    · simp
    · exact h

/-- C9: when a date column consists of values the day-month-year explicit
format parses (DD-MM-YYYY text) while the general-purpose parse leaves
more than half of the column unparsable, the explicit-format retry of
_convert_dates recovers every value: the reported invalid count is 0 and
no converted cell is null. -/
theorem date_fallback_recovers (gp : Cell → Option Date) (col : List Cell)
    (hfmt : ∀ c ∈ col, (parseWithFormat fmtDMY c).isSome)
    (hgen : 2 * naCount (col.map gp) > col.length) :
    (_convert_dates gp col).2 = 0 ∧
      ∀ c ∈ (_convert_dates gp col).1, c ≠ Cell.null := by
  have hmem : fmtDMY ∈ DATE_FORMATS := by decide
  have hdmy : nnCount (col.map (parseWithFormat fmtDMY)) = col.length := by
    unfold nnCount
    rw [List.filter_eq_self.mpr, List.length_map]
    intro o ho
    obtain ⟨c, hc, rfl⟩ := List.mem_map.mp ho
    exact hfmt c hc
  simp only [_convert_dates]
  rw [if_pos hgen]
  set final := retryFold col (col.map gp) with hfinal
  have hlen : final.length = col.length :=
    retryFoldGen_length col DATE_FORMATS (col.map gp) (List.length_map _ _)
  have hge : col.length ≤ nnCount final := by
    rw [← hdmy]
    exact retryFoldGen_nn_ge col DATE_FORMATS (col.map gp) fmtDMY hmem
  have hnn : nnCount final = col.length :=
    le_antisymm (hlen ▸ nn_le_length final) hge
  have hna : naCount final = 0 := by
    have := na_add_nn final
    omega
  have hfilter : final.filter (fun o => o.isNone) = [] :=
    List.length_eq_zero.mp hna
  have hsome : ∀ o ∈ final, o.isSome := by
    intro o ho
    by_contra hno
    have : o ∈ final.filter (fun o => o.isNone) := by
      rw [List.mem_filter]
      exact ⟨ho, by cases o <;> simp_all⟩
    rw [hfilter] at this
    cases this
  constructor
  · have : (naCount final : ℤ) -
        ((col.filter (fun c => decide (c = Cell.null))).length : ℤ) ≤ 0 := by
      rw [hna]; omega
    rw [max_eq_left this]
    rfl
  · intro c hc
    obtain ⟨o, ho, rfl⟩ := List.mem_map.mp hc
    have := hsome o ho
    cases o with
    | none => cases this
    | some d => simp

/-- Witness for C9: the all-DD-MM-YYYY column under a general parser that
parses nothing (so 100 percent of the column fails generic parsing). -/
theorem date_fallback_recovers_witness :
    (_convert_dates gpNone colDMY).2 = 0 ∧
      ∀ c ∈ (_convert_dates gpNone colDMY).1, c ≠ Cell.null :=
  date_fallback_recovers gpNone colDMY (by decide) (by decide)

/-! ### Row access lemmas -/

/-- Helper: writing a column then reading it back. -/
theorem getCell_setCell_same (r : Row) (c : String) (v : Cell) :
    getCell (setCell r c v) c = v := by
  induction r with
  | nil => simp [setCell, getCell]
  | cons p rest ih =>
    obtain ⟨k, w⟩ := p
    simp only [setCell]
    by_cases hk : k = c
    · rw [if_pos hk]
      simp [getCell]
    · rw [if_neg hk]
      simpa [getCell, hk] using ih

/-- Helper: writing one column leaves the others unchanged. -/
theorem getCell_setCell_other (r : Row) (c c' : String) (v : Cell) (h : c ≠ c') :
    getCell (setCell r c v) c' = getCell r c' := by
  induction r with
  | nil => simp [setCell, getCell, h]
  | cons p rest ih =>
    obtain ⟨k, w⟩ := p
    simp only [setCell]
    by_cases hk : k = c
    · rw [if_pos hk]
      simp only [getCell]
      rw [if_neg h, if_neg (hk ▸ h)]
    · rw [if_neg hk]
      by_cases hk' : k = c' <;> simp [getCell, hk', ih]

/-- Helper: a column outside the written set is unchanged by a fold of
per-column writes. -/
theorem getCell_foldl_set_not_mem (f : String → Cell → Cell) :
    ∀ (cols : List String) (r : Row) (c : String), c ∉ cols →
      getCell (cols.foldl (fun r c' => setCell r c' (f c' (getCell r c'))) r) c =
        getCell r c := by
  intro cols
  induction cols with
  | nil => intro r c _; rfl
  | cons a rest ih =>
    intro r c h
    simp only [List.foldl_cons]
    rw [ih _ _ (fun hm => h (List.mem_cons_of_mem _ hm))]
    exact getCell_setCell_other _ _ _ _ (fun heq => h (heq ▸ List.mem_cons_self _ _))

/-- Helper: a column inside a duplicate-free written set receives exactly
its own transform. -/
theorem getCell_foldl_set_mem (f : String → Cell → Cell) :
    ∀ (cols : List String) (r : Row) (c : String), cols.Nodup → c ∈ cols →
      getCell (cols.foldl (fun r c' => setCell r c' (f c' (getCell r c'))) r) c =
        f c (getCell r c) := by
  intro cols
  induction cols with
  | nil => intro r c _ h; cases h
  | cons a rest ih =>
    intro r c hnd h
    simp only [List.foldl_cons]
    rcases List.mem_cons.mp h with rfl | hm
    · rw [getCell_foldl_set_not_mem f rest _ _ (List.nodup_cons.mp hnd).1]
      exact getCell_setCell_same _ _ _
    · have hne : a ≠ c := fun heq => (List.nodup_cons.mp hnd).1 (heq ▸ hm)
      rw [ih _ _ (List.nodup_cons.mp hnd).2 hm, getCell_setCell_other _ _ _ _ hne]

/-! ### Claim C4: duplicate collapse -/

/-- Helper: drop_duplicates returns a subsequence of its input. -/
theorem dropDupGo_sublist (key : Row → Cell) :
    ∀ (l : List Row) (seen : List Cell), (dropDupGo key seen l).Sublist l := by
  intro l
  induction l with
  | nil => intro seen; exact List.Sublist.refl _
  | cons r rest ih =>
    intro seen
    simp only [dropDupGo]
    split
    · exact (ih seen).cons _
    · exact (ih _).cons₂ _

/-- Helper: the keys kept by drop_duplicates are distinct and avoid the
already-seen keys. -/
theorem dropDupGo_keys (key : Row → Cell) :
    ∀ (l : List Row) (seen : List Cell),
      ((dropDupGo key seen l).map key).Nodup ∧
      ∀ c ∈ (dropDupGo key seen l).map key, c ∉ seen := by
  intro l
  induction l with
  | nil => intro seen; simp [dropDupGo]
  | cons r rest ih =>
    intro seen
    simp only [dropDupGo]
    split
    · exact ih seen
    · next hks =>
      obtain ⟨h1, h2⟩ := ih (key r :: seen)
      refine ⟨List.nodup_cons.mpr ⟨?_, h1⟩, ?_⟩
      · intro hmem
        exact (h2 _ hmem) (List.mem_cons_self _ _)
      · intro c hc
        simp only [List.map_cons, List.mem_cons] at hc
        rcases hc with rfl | hc
        · exact hks
        · intro hcs
          exact (h2 c hc) (List.mem_cons_of_mem _ hcs)

/-- Helper: for every input row whose key is not yet seen, the first input
row carrying that key is among the kept rows. -/
theorem dropDupGo_find (key : Row → Cell) :
    ∀ (l : List Row) (seen : List Cell) (r : Row), r ∈ l → key r ∉ seen →
      ∃ r₀ ∈ dropDupGo key seen l,
        l.find? (fun r' => decide (key r' = key r)) = some r₀ := by
  intro l
  induction l with
  | nil => intro seen r h; cases h
  | cons a rest ih =>
    intro seen r hr hks
    by_cases hka : key a = key r
    · have hkeep : a ∈ dropDupGo key seen (a :: rest) := by
        simp only [dropDupGo]
        rw [if_neg (hka ▸ hks)]
        exact List.mem_cons_self _ _
      exact ⟨a, hkeep, List.find?_cons_of_pos _ (by simp [hka])⟩
    · have hr' : r ∈ rest := by
        rcases List.mem_cons.mp hr with rfl | hmem
        · exact absurd rfl hka
        · exact hmem
      rw [List.find?_cons_of_neg _ (by simp [hka])]
      simp only [dropDupGo]
      split
      · exact ih seen r hr' hks
      · obtain ⟨r₀, hmem, hfind⟩ := ih (key a :: seen) r hr' (by
          intro hmem
          rcases List.mem_cons.mp hmem with heq | hmem2
          · exact hka heq.symm
          · exact hks hmem2)
        exact ⟨r₀, List.mem_cons_of_mem _ hmem, hfind⟩

/-- Helper: the date conversion preserves the column length. -/
theorem convert_dates_length (gp : Cell → Option Date) (col : List Cell) :
    (_convert_dates gp col).1.length = col.length := by
  simp only [_convert_dates]
  rw [List.length_map]
  split
  · unfold retryFold
    exact retryFoldGen_length col DATE_FORMATS _ (List.length_map _ _)
  · exact List.length_map _ _

/-- Helper: order ids surviving the date pass, as a list, form a
subsequence of the incoming ones. -/
theorem dateStep_oid (gp : Cell → Option Date) (df : DF) :
    ((dateStep gp df).1.rows.map (fun r => getCell r "order_id")).Sublist
      (df.rows.map (fun r => getCell r "order_id")) := by
  simp only [dateStep]
  split
  · simp only
    have hzip : ((df.rows.zip (_convert_dates gp (colVals df "date")).1).map
            (fun p => setCell p.1 "date" p.2)).map
            (fun r => getCell r "order_id") =
          df.rows.map (fun r => getCell r "order_id") := by
      rw [List.map_map]
      have h1 : ((df.rows.zip (_convert_dates gp (colVals df "date")).1).map
          ((fun r => getCell r "order_id") ∘ fun p => setCell p.1 "date" p.2)) =
          ((df.rows.zip (_convert_dates gp (colVals df "date")).1).map
            (fun p => getCell p.1 "order_id")) :=
        List.map_congr_left (fun p _ => getCell_setCell_other _ _ _ _ (by decide))
      rw [h1]
      have h2 : ∀ (l1 : List Row) (l2 : List Cell), l1.length ≤ l2.length →
          (l1.zip l2).map (fun p => getCell p.1 "order_id") =
            l1.map (fun r => getCell r "order_id") := by
        intro l1
        induction l1 with
        | nil => intro l2 _; rfl
        | cons a rest ih =>
          intro l2 hl
          cases l2 with
          | nil => simp at hl
          | cons b brest =>
            simp only [List.zip_cons_cons, List.map_cons]
            rw [ih brest (by simpa using hl)]
      have hlen : df.rows.length ≤ (_convert_dates gp (colVals df "date")).1.length := by
        rw [convert_dates_length]
        unfold colVals
        rw [List.length_map]
      exact h2 _ _ hlen
    rw [← hzip]
    exact (List.filter_sublist _).map _
  · exact List.Sublist.refl _

/-- Helper: the numeric pass does not touch the order id column. -/
theorem numericStep_oid (df : DF) :
    (numericStep df).1.rows.map (fun r => getCell r "order_id")
      = df.rows.map (fun r => getCell r "order_id") := by
  simp only [numericStep, List.map_map]
  refine List.map_congr_left (fun r _ => ?_)
  simp only [Function.comp_apply]
  exact getCell_foldl_set_not_mem (fun _ v => cleanNumericCell v) _ _ _ (fun hm =>
    (by decide : "order_id" ∉ numericCols) (List.mem_filter.mp hm).1)

/-- Helper: the required-null drop keeps a subsequence of the order ids. -/
theorem dropNullStep_oid (df : DF) :
    ((dropNullRequiredStep df).1.rows.map (fun r => getCell r "order_id")).Sublist
      (df.rows.map (fun r => getCell r "order_id")) := by
  simp only [dropNullRequiredStep]
  split
  · exact List.Sublist.refl _
  · exact (List.filter_sublist _).map _

/-- Helper: the optional fill does not touch the order id column. -/
theorem fillStep_oid (df : DF) :
    (fillOptionalStep df).rows.map (fun r => getCell r "order_id")
      = df.rows.map (fun r => getCell r "order_id") := by
  simp only [fillOptionalStep, List.map_map]
  refine List.map_congr_left (fun r _ => ?_)
  simp only [Function.comp_apply]
  exact getCell_foldl_set_not_mem (fun _ v => if v = Cell.null then Cell.num 0 else v)
    _ _ _ (fun hm =>
      (by decide : "order_id" ∉ ["cost", "marketing_spend"]) (List.mem_filter.mp hm).1)

/-- Helper: text normalization does not touch the order id column. -/
theorem textStep_oid (df : DF) :
    (textStep df).1.rows.map (fun r => getCell r "order_id")
      = df.rows.map (fun r => getCell r "order_id") := by
  simp only [textStep, List.map_map]
  refine List.map_congr_left (fun r _ => ?_)
  simp only [Function.comp_apply]
  exact getCell_foldl_set_not_mem (fun _ v => normalizeTextCell v) _ _ _ (fun hm =>
    (by decide : "order_id" ∉ TEXT_COLUMNS) (List.mem_filter.mp hm).1)

/-- Helper: the bucket derivation does not touch the order id column. -/
theorem ymStep_oid (df : DF) :
    (yearMonthStep df).rows.map (fun r => getCell r "order_id")
      = df.rows.map (fun r => getCell r "order_id") := by
  simp only [yearMonthStep]
  split
  · simp only [List.map_map]
    exact List.map_congr_left (fun r _ => getCell_setCell_other _ _ _ _ (by decide))
  · rfl

/-- C4: when the mapped table carries an order_id column, the duplicate
pass of clean keeps, for each order id, exactly the first row of the input
carrying it (so two rows sharing an order id but differing in revenue
collapse to the first), and the fully cleaned output never repeats an
order id. -/
theorem clean_duplicate_collapse (gp : Cell → Option Date) (df : DF)
    (h : "order_id" ∈ df.columns) :
    ((dropDupStep df).1.rows.Sublist df.rows ∧
     ((dropDupStep df).1.rows.map (fun r => getCell r "order_id")).Nodup ∧
     (∀ r ∈ df.rows, ∃ r₀ ∈ (dropDupStep df).1.rows,
        df.rows.find?
          (fun r' => decide (getCell r' "order_id" = getCell r "order_id")) = some r₀)) ∧
    ((clean gp df).1.rows.map (fun r => getCell r "order_id")).Nodup := by
  have hstep : (dropDupStep df).1.rows =
      dropDuplicatesOn (fun r => getCell r "order_id") df.rows := by
    simp only [dropDupStep]
    rw [if_pos h]
  constructor
  · refine ⟨?_, ?_, ?_⟩
    · rw [hstep]
      exact dropDupGo_sublist _ df.rows []
    · rw [hstep]
      exact (dropDupGo_keys _ df.rows []).1
    · intro r hr
      rw [hstep]
      exact dropDupGo_find _ df.rows [] r hr (by simp)
  · have hclean : (clean gp df).1 = yearMonthStep ((textStep (fillOptionalStep
        (dropNullRequiredStep (numericStep
          (dateStep gp (dropDupStep df).1).1).1).1)).1) := rfl
    have hchain : ((clean gp df).1.rows.map (fun r => getCell r "order_id")).Sublist
        ((dropDupStep df).1.rows.map (fun r => getCell r "order_id")) := by
      rw [hclean, ymStep_oid, textStep_oid, fillStep_oid]
      refine List.Sublist.trans (dropNullStep_oid _) ?_
      rw [numericStep_oid]
      exact dateStep_oid _ _
    exact List.Nodup.sublist hchain (by rw [hstep]; exact (dropDupGo_keys _ df.rows []).1)

/-- Witness for C4: two rows with order id X and revenues 100 and 200
collapse to one cleaned row keeping revenue 100. -/
theorem clean_duplicate_collapse_witness :
    (((dropDupStep dfDup).1.rows.Sublist dfDup.rows ∧
      ((dropDupStep dfDup).1.rows.map (fun r => getCell r "order_id")).Nodup ∧
      (∀ r ∈ dfDup.rows, ∃ r₀ ∈ (dropDupStep dfDup).1.rows,
         dfDup.rows.find?
           (fun r' => decide (getCell r' "order_id" = getCell r "order_id")) = some r₀)) ∧
     ((clean gpNone dfDup).1.rows.map (fun r => getCell r "order_id")).Nodup) ∧
    (clean gpNone dfDup).1.rows.map (fun r => getCell r "revenue") = [Cell.num 100] :=
  ⟨clean_duplicate_collapse gpNone dfDup (by decide), by decide⟩

/-! ### Order lemmas for the cell comparison -/

/-- Helper: code points determine characters. -/
theorem charToNat_inj {a b : Char} (h : a.toNat = b.toNat) : a = b := by
  have hv : a.val = b.val := by
    unfold Char.toNat at h
    exact UInt32.toNat.inj h
  exact Char.eq_of_val_eq hv

/-- Helper: the lexicographic character-list comparison is total. -/
theorem charListLe_total : ∀ (as bs : List Char),
    charListLe as bs = true ∨ charListLe bs as = true := by
  intro as
  induction as with
  | nil => intro bs; left; rfl
  | cons a as ih =>
    intro bs
    cases bs with
    | nil => right; rfl
    | cons b bs =>
      by_cases hab : a = b
      · subst hab
        simpa [charListLe] using ih bs
      · have hn : a.toNat ≠ b.toNat := fun h => hab (charToNat_inj h)
        rcases Nat.lt_or_ge a.toNat b.toNat with hlt | hge
        · left
          rw [charListLe, if_neg hab]
          simp [charLt, hlt]
        · right
          have hba : ¬ (b = a) := fun h => hab h.symm
          have hlt : b.toNat < a.toNat := lt_of_le_of_ne hge (fun h => hn h.symm)
          rw [charListLe, if_neg hba]
          simp [charLt, hlt]

/-- Helper: the lexicographic character-list comparison is antisymmetric. -/
theorem charListLe_antisymm : ∀ (as bs : List Char),
    charListLe as bs = true → charListLe bs as = true → as = bs := by
  intro as
  induction as with
  | nil =>
    intro bs h1 h2
    cases bs with
    | nil => rfl
    | cons b bs => simp [charListLe] at h2
  | cons a as ih =>
    intro bs h1 h2
    cases bs with
    | nil => simp [charListLe] at h1
    | cons b bs =>
      by_cases hab : a = b
      · subst hab
        simp only [charListLe, if_pos rfl] at h1 h2
        rw [ih bs h1 h2]
      · rw [charListLe, if_neg hab] at h1
        rw [charListLe, if_neg (fun h => hab h.symm)] at h2
        simp [charLt] at h1 h2
        omega

/-- Helper: the lexicographic character-list comparison is transitive. -/
theorem charListLe_trans : ∀ (as bs cs : List Char),
    charListLe as bs = true → charListLe bs cs = true → charListLe as cs = true := by
  intro as
  induction as with
  | nil => intro bs cs _ _; rfl
  | cons a as ih =>
    intro bs cs h1 h2
    cases bs with
    | nil => simp [charListLe] at h1
    | cons b bs =>
      cases cs with
      | nil => simp [charListLe] at h2
      | cons c cs =>
        by_cases hab : a = b <;> by_cases hbc : b = c
        · subst hab; subst hbc
          rw [charListLe, if_pos rfl] at h1 h2 ⊢
          exact ih bs cs h1 h2
        · subst hab
          rw [charListLe, if_neg hbc] at h2
          rw [charListLe, if_neg hbc]
          exact h2
        · subst hbc
          rw [charListLe, if_neg hab] at h1
          rw [charListLe, if_neg hab]
          exact h1
        · rw [charListLe, if_neg hab] at h1
          rw [charListLe, if_neg hbc] at h2
          simp only [charLt, decide_eq_true_eq] at h1 h2
          have hac : a.toNat < c.toNat := lt_trans h1 h2
          have hne : a ≠ c := fun h => by rw [h] at h1; omega
          rw [charListLe, if_neg hne]
          simp [charLt, hac]

/-- Helper: the date comparison unfolded. -/
theorem dateLeB_iff (a b : Date) : dateLeB a b = true ↔
    (a.y < b.y ∨ (a.y = b.y ∧ (a.m < b.m ∨ (a.m = b.m ∧ a.d ≤ b.d)))) := by
  simp [dateLeB]

/-- Helper: the date comparison is total. -/
theorem dateLeB_total (a b : Date) : dateLeB a b = true ∨ dateLeB b a = true := by
  rw [dateLeB_iff, dateLeB_iff]
  omega

/-- Helper: the date comparison is antisymmetric. -/
theorem dateLeB_antisymm (a b : Date) (h1 : dateLeB a b = true)
    (h2 : dateLeB b a = true) : a = b := by
  rw [dateLeB_iff] at h1 h2
  obtain ⟨ay, am, ad⟩ := a
  obtain ⟨by', bm, bd⟩ := b
  simp only at h1 h2
  have : ay = by' ∧ am = bm ∧ ad = bd := by omega
  simp [this.1, this.2.1, this.2.2]

/-- Helper: the date comparison is transitive. -/
theorem dateLeB_trans (a b c : Date) (h1 : dateLeB a b = true)
    (h2 : dateLeB b c = true) : dateLeB a c = true := by
  rw [dateLeB_iff] at h1 h2 ⊢
  omega

/-- Helper: the cell comparison is total. -/
theorem cellLe_total (a b : Cell) : cellLe a b = true ∨ cellLe b a = true := by
  cases a <;> cases b <;> simp [cellLe, cellRank, strLeB] <;>
    first
      | exact charListLe_total _ _
      | exact le_total _ _
      | exact dateLeB_total _ _

/-- Helper: the cell comparison is transitive. -/
theorem cellLe_trans (a b c : Cell) (h1 : cellLe a b = true)
    (h2 : cellLe b c = true) : cellLe a c = true := by
  cases a <;> cases b <;> cases c <;>
    simp_all [cellLe, cellRank, strLeB] <;>
    first
      | exact charListLe_trans _ _ _ h1 h2
      | exact le_trans h1 h2
      | exact dateLeB_trans _ _ _ h1 h2

/-- Helper: the cell comparison is antisymmetric. -/
theorem cellLe_antisymm (a b : Cell) (h1 : cellLe a b = true)
    (h2 : cellLe b a = true) : a = b := by
  cases a <;> cases b <;> simp_all [cellLe, cellRank, strLeB]
  case str.str s t =>
    obtain ⟨sd⟩ := s
    obtain ⟨td⟩ := t
    exact congrArg String.mk (charListLe_antisymm _ _ h1 h2)
  case num.num p q => exact le_antisymm h1 h2
  case date.date u v => exact dateLeB_antisymm _ _ h1 h2

instance : IsTotal Cell cellLeP := ⟨fun a b => cellLe_total a b⟩

instance : IsTrans Cell cellLeP := ⟨fun a b c => cellLe_trans a b c⟩

/-! ### Sorting lemmas

The following lemmas verify the group-key machinery and the guaranteed
part of the descending sort: the embedded sort permutes its input and
orders it by descending key, which is the documented contract of
sort_values regardless of kind. Its tie order is additionally stable, a
property the default quicksort of the source does not guarantee, so no
claim rests on it. -/

/-- Helper: the group keys are duplicate-free. -/
theorem groupKeys_nodup (vals : List Cell) : (groupKeys vals).Nodup :=
  ((List.perm_insertionSort cellLeP _).nodup_iff).mpr (List.nodup_dedup _)

/-- Helper: every non-null column value is a group key. -/
theorem groupKeys_complete {vals : List Cell} {c : Cell} (hc : c ∈ vals)
    (hnn : c ≠ Cell.null) : c ∈ groupKeys vals := by
  unfold groupKeys
  rw [(List.perm_insertionSort cellLeP _).mem_iff, List.mem_dedup, List.mem_filter]
  exact ⟨hc, by simpa using hnn⟩

/-- Helper: membership through the stable descending insertion. -/
theorem insDescStable_mem (f : Row → ℚ) (a x : Row) :
    ∀ (l : List Row), x ∈ insDescStable f a l ↔ x = a ∨ x ∈ l := by
  intro l
  induction l with
  | nil => simp [insDescStable]
  | cons b l ih =>
    simp only [insDescStable]
    split
    · simp only [List.mem_cons, ih]
      try tauto
    · simp only [List.mem_cons]
      try tauto

/-- Helper: the stable descending insertion permutes a cons. -/
theorem insDescStable_perm (f : Row → ℚ) (a : Row) :
    ∀ (l : List Row), (insDescStable f a l).Perm (a :: l) := by
  intro l
  induction l with
  | nil => exact List.Perm.refl _
  | cons b l ih =>
    simp only [insDescStable]
    split
    · exact (ih.cons b).trans (List.Perm.swap a b l)
    · exact List.Perm.refl _

/-- Helper: the stable descending sort permutes its input. -/
theorem sortValuesDesc_perm (f : Row → ℚ) (l : List Row) :
    (sortValuesDesc f l).Perm l := by
  suffices h : ∀ (l acc : List Row),
      (l.foldl (fun acc a => insDescStable f a acc) acc).Perm (acc ++ l) by
    simpa [sortValuesDesc] using h l []
  intro l
  induction l with
  | nil => intro acc; simp
  | cons a rest ih =>
    intro acc
    simp only [List.foldl_cons]
    refine (ih _).trans ?_
    refine (List.Perm.append_right rest (insDescStable_perm f a acc)).trans ?_
    exact List.perm_middle.symm

/-- Helper: inserting below all stably placed rows of equal or larger key
keeps the descending-with-tiebreak order, provided every equal-key row
already present precedes the new row in the tiebreak order. -/
theorem insDescStable_pairwise (f : Row → ℚ) (P : Row → Row → Prop) (a : Row) :
    ∀ (l : List Row),
      l.Pairwise (fun x y => f y < f x ∨ (f x = f y ∧ P x y)) →
      (∀ b ∈ l, f a = f b → P b a) →
      (insDescStable f a l).Pairwise (fun x y => f y < f x ∨ (f x = f y ∧ P x y)) := by
  intro l
  induction l with
  | nil => intro _ _; simp [insDescStable]
  | cons b l ih =>
    intro hpw hP
    obtain ⟨hb, hl⟩ := List.pairwise_cons.mp hpw
    simp only [insDescStable]
    split
    · next hle =>
      refine List.pairwise_cons.mpr
        ⟨?_, ih hl (fun x hx hfx => hP x (List.mem_cons_of_mem _ hx) hfx)⟩
      intro x hx
      rcases (insDescStable_mem f a x l).mp hx with rfl | hxl
      · rcases lt_or_eq_of_le hle with hlt | heq
        · exact Or.inl hlt
        · exact Or.inr ⟨heq.symm, hP b (List.mem_cons_self _ _) heq⟩
      · exact hb x hxl
    · next hgt =>
      push_neg at hgt
      refine List.pairwise_cons.mpr ⟨?_, hpw⟩
      intro x hx
      rcases List.mem_cons.mp hx with rfl | hxl
      · exact Or.inl hgt
      · rcases hb x hxl with h | ⟨heq, _⟩
        · exact Or.inl (lt_trans h hgt)
        · exact Or.inl (heq ▸ hgt)

/-- Helper: the stable descending sort of a list that is pairwise ordered
by a tiebreak relation is pairwise ordered by descending key with that
tiebreak at equal keys. -/
theorem sortValuesDesc_pairwise (f : Row → ℚ) (P : Row → Row → Prop) (l : List Row)
    (hl : l.Pairwise P) :
    (sortValuesDesc f l).Pairwise (fun x y => f y < f x ∨ (f x = f y ∧ P x y)) := by
  suffices h : ∀ (l acc : List Row), l.Pairwise P →
      acc.Pairwise (fun x y => f y < f x ∨ (f x = f y ∧ P x y)) →
      (∀ b ∈ acc, ∀ x ∈ l, P b x) →
      (l.foldl (fun acc a => insDescStable f a acc) acc).Pairwise
        (fun x y => f y < f x ∨ (f x = f y ∧ P x y)) by
    exact h l [] hl List.Pairwise.nil (by simp)
  intro l
  induction l with
  | nil => intro acc _ hacc _; exact hacc
  | cons a rest ih =>
    intro acc hl hacc hcross
    simp only [List.foldl_cons]
    refine ih _ hl.of_cons ?_ ?_
    · exact insDescStable_pairwise f P a acc hacc
        (fun b hb _ => hcross b hb a (List.mem_cons_self _ _))
    · intro b hb x hx
      rcases (insDescStable_mem f a b acc).mp hb with rfl | hbacc
      · exact (List.pairwise_cons.mp hl).1 x hx
      · exact hcross b hbacc x (List.mem_cons_of_mem _ hx)

/-- Helper: the embedded sort is pairwise descending in the key: the part
of the sort_values contract that holds for every sorting kind. -/
theorem sortValuesDesc_sorted (f : Row → ℚ) (l : List Row) :
    (sortValuesDesc f l).Pairwise (fun a b => f b ≤ f a) := by
  have htrue : l.Pairwise (fun _ _ => True) := by
    induction l with
    | nil => exact List.Pairwise.nil
    | cons a t ih => exact List.Pairwise.cons (fun _ _ => trivial) ih
  refine (sortValuesDesc_pairwise f (fun _ _ => True) l htrue).imp ?_
  intro a b h
  rcases h with h | ⟨h, -⟩
  · exact le_of_lt h
  · exact le_of_eq h.symm

/-- Helper: the segment cell of an aggregated segment row. -/
theorem segmentRow_segment (df : DF) (segc : String) (k : Cell) :
    getCell (segmentRow df segc k) "segment" = k := by
  simp [segmentRow, getCell]

/-- Helper: the group keys are pairwise strictly ascending. -/
theorem groupKeys_sorted_strict (vals : List Cell) :
    (vals |> groupKeys).Pairwise (fun a b => cellLeP a b ∧ a ≠ b) :=
  (List.sorted_insertionSort cellLeP _).and (groupKeys_nodup vals)

/-! ### Claim C8: text normalization -/

/-- Helper: the duplicate pass keeps the column list. -/
theorem dropDupStep_columns (df : DF) : (dropDupStep df).1.columns = df.columns := by
  simp only [dropDupStep]
  split <;> rfl

/-- Helper: the date pass keeps the column list. -/
theorem dateStep_columns (gp : Cell → Option Date) (df : DF) :
    (dateStep gp df).1.columns = df.columns := by
  simp only [dateStep]
  split <;> rfl

/-- Helper: the numeric pass keeps the column list. -/
theorem numericStep_columns (df : DF) : (numericStep df).1.columns = df.columns := rfl

/-- Helper: the required-null drop keeps the column list. -/
theorem dropNullStep_columns (df : DF) :
    (dropNullRequiredStep df).1.columns = df.columns := by
  simp only [dropNullRequiredStep]
  split <;> rfl

/-- Helper: the optional fill keeps the column list. -/
theorem fillStep_columns (df : DF) : (fillOptionalStep df).columns = df.columns := rfl

/-- Helper: the column list entering the text pass is the input column
list. -/
theorem cleanThroughStep5_columns (gp : Cell → Option Date) (df : DF) :
    (cleanThroughStep5 gp df).columns = df.columns := by
  unfold cleanThroughStep5
  rw [fillStep_columns, dropNullStep_columns, numericStep_columns, dateStep_columns,
    dropDupStep_columns]

/-- Helper: the bucket derivation leaves every other column unchanged. -/
theorem ymStep_col (df : DF) (c : String) (hc : c ≠ "year_month") :
    (yearMonthStep df).rows.map (fun r => getCell r c) =
      df.rows.map (fun r => getCell r c) := by
  simp only [yearMonthStep]
  split
  · simp only [List.map_map]
    exact List.map_congr_left (fun r _ =>
      getCell_setCell_other _ _ _ _ (fun heq => hc heq.symm))
  · rfl

/-- Helper: the text pass maps exactly the per-cell normalization over
every present configured text column. -/
theorem textStep_col (df : DF) (c : String) (hc : c ∈ TEXT_COLUMNS)
    (hin : c ∈ df.columns) :
    (textStep df).1.rows.map (fun r => getCell r c) =
      (df.rows.map (fun r => getCell r c)).map normalizeTextCell := by
  simp only [textStep, List.map_map]
  refine List.map_congr_left (fun r _ => ?_)
  simp only [Function.comp_apply]
  exact getCell_foldl_set_mem (fun _ v => normalizeTextCell v)
    (TEXT_COLUMNS.filter (fun c => decide (c ∈ df.columns))) r c
    ((by decide : TEXT_COLUMNS.Nodup).filter _)
    (List.mem_filter.mpr ⟨hc, by simpa using hin⟩)

/-- C8 (corrected): a channel column holding the empty string and the
sentinel texts None and null keeps them (lowercased) instead of replacing
them with unknown; only the exact text nan is replaced. -/
theorem text_normalization_counterexample :
    (clean gpNone dfText).1.rows.map (fun r => getCell r "channel") =
      [Cell.str "", Cell.str "none", Cell.str "null"] ∧
    Cell.str "" ≠ Cell.str "unknown" ∧
    Cell.str "none" ≠ Cell.str "unknown" ∧
    Cell.str "null" ≠ Cell.str "unknown" := by decide

/-- C8 (amended): for every configured categorical column present in the
table, clean rewrites each of its cells to the trimmed, lowercased string
form of the cell, except that the exact resulting text nan (which is what
null values render to) becomes unknown; empty strings and the sentinels
none and null are kept as ordinary text rather than becoming unknown. -/
theorem text_normalization_amended (gp : Cell → Option Date) (df : DF) (col : String)
    (hcol : col ∈ TEXT_COLUMNS) (hin : col ∈ df.columns) :
    ((clean gp df).1.rows.map (fun r => getCell r col) =
      ((cleanThroughStep5 gp df).rows.map (fun r => getCell r col)).map normalizeTextCell) ∧
    normalizeTextCell Cell.null = Cell.str "unknown" ∧
    (∀ s, normalizeTextCell (Cell.str s) =
      Cell.str (if pyLower (pyStrip s) = "nan" then "unknown" else pyLower (pyStrip s))) ∧
    normalizeTextCell (Cell.str "") = Cell.str "" ∧
    normalizeTextCell (Cell.str "None") = Cell.str "none" ∧
    normalizeTextCell (Cell.str "null") = Cell.str "null" := by
  have hcolne : col ≠ "year_month" := by
    have hc4 : col = "channel" ∨ col = "region" ∨ col = "category" ∨ col = "device" := by
      simpa [TEXT_COLUMNS] using hcol
    rcases hc4 with rfl | rfl | rfl | rfl <;> decide
  have hcol' : col ∈ TEXT_COLUMNS := hcol
  have hin5 : col ∈ (cleanThroughStep5 gp df).columns := by
    rw [cleanThroughStep5_columns]
    exact hin
  have hclean : (clean gp df).1 = yearMonthStep ((textStep (cleanThroughStep5 gp df)).1) := rfl
  refine ⟨?_, by decide, fun s => by simp only [normalizeTextCell, cellToPyStr]; split <;> rfl,
    by decide, by decide, by decide⟩
  rw [hclean, ymStep_col _ col hcolne, textStep_col _ col hcol' hin5]

/-- Witness for the amended C8 at the concrete sentinel table. -/
theorem text_normalization_amended_witness :
    ((clean gpNone dfText).1.rows.map (fun r => getCell r "channel") =
      ((cleanThroughStep5 gpNone dfText).rows.map
        (fun r => getCell r "channel")).map normalizeTextCell) ∧
    normalizeTextCell Cell.null = Cell.str "unknown" ∧
    (∀ s, normalizeTextCell (Cell.str s) =
      Cell.str (if pyLower (pyStrip s) = "nan" then "unknown" else pyLower (pyStrip s))) ∧
    normalizeTextCell (Cell.str "") = Cell.str "" ∧
    normalizeTextCell (Cell.str "None") = Cell.str "none" ∧
    normalizeTextCell (Cell.str "null") = Cell.str "null" :=
  text_normalization_amended gpNone dfText "channel" (by decide) (by decide)

/-! ### Claim C1: conservation of totals -/

/-- Helper: the total_revenue cell of an aggregated monthly row. -/
theorem monthlyRow_total_revenue (df : DF) (hc hs : Bool) (k : Cell) :
    getCell (monthlyRow df hc hs k) "total_revenue" =
      Cell.num (sumCol ((groupRows df "year_month" k).map (fun r => getCell r "revenue"))) := by
  simp [monthlyRow, getCell]

/-- Helper: summing the numeric cells equals summing with nulls read as 0. -/
theorem sumCol_eq_sum_getD (cs : List Cell) :
    sumCol cs = (cs.map (fun c => (cellNum? c).getD 0)).sum := by
  unfold sumCol
  induction cs with
  | nil => rfl
  | cons c rest ih =>
    cases c <;>
      simp [cellNum?, List.filterMap_cons, List.map_cons, List.sum_cons, ih]

/-- Helper: reading back a column of number cells. -/
theorem filterMap_num_map (l : List ℚ) : (l.map Cell.num).filterMap cellNum? = l := by
  induction l with
  | nil => rfl
  | cons q rest ih => simp [cellNum?, ih]

/-- Helper: summing a column built of number cells. -/
theorem sumCol_map_num {α : Type} (l : List α) (f : α → ℚ) :
    sumCol (l.map (fun a => Cell.num (f a))) = (l.map f).sum := by
  unfold sumCol
  induction l with
  | nil => rfl
  | cons a rest ih =>
    simp only [List.map_cons, List.filterMap_cons, cellNum?, List.sum_cons, ih]

/-- Helper: adding a constant at one key of a keyed sum. -/
theorem sum_if_single {α : Type} [DecidableEq α] (g : α → ℚ) (c : ℚ) (k₀ : α) :
    ∀ (ks : List α), ks.Nodup → k₀ ∈ ks →
      (ks.map (fun k => if k₀ = k then c + g k else g k)).sum = c + (ks.map g).sum := by
  intro ks
  induction ks with
  | nil => intro _ h; cases h
  | cons a rest ih =>
    intro hnd hmem
    rcases List.mem_cons.mp hmem with rfl | hmem2
    · have hnot : ∀ k ∈ rest, ¬ (k₀ = k) := fun k hk heq =>
        (List.nodup_cons.mp hnd).1 (heq ▸ hk)
      simp only [List.map_cons, List.sum_cons, if_true]
      rw [List.map_congr_left (fun k hk => if_neg (hnot k hk))]
      ring
    · have hne : ¬ (k₀ = a) := fun heq => (List.nodup_cons.mp hnd).1 (heq ▸ hmem2)
      simp only [List.map_cons, List.sum_cons]
      rw [if_neg hne, ih (List.nodup_cons.mp hnd).2 hmem2]
      ring

/-- Helper: a keyed family of group sums over a complete, duplicate-free
key list adds up to the plain sum over the rows. -/
theorem sum_over_groups (key : Row → Cell) (f : Row → ℚ) :
    ∀ (rows : List Row) (ks : List Cell), ks.Nodup →
      (∀ r ∈ rows, key r ∈ ks) →
      (ks.map (fun k =>
        ((rows.filter (fun r => decide (key r = k))).map f).sum)).sum
        = (rows.map f).sum := by
  intro rows
  induction rows with
  | nil => intro ks _ _; simp
  | cons r rest ih =>
    intro ks hnd hcomp
    have hr : key r ∈ ks := hcomp r (List.mem_cons_self _ _)
    have hrest : ∀ x ∈ rest, key x ∈ ks := fun x hx => hcomp x (List.mem_cons_of_mem _ hx)
    have hpt : ∀ k ∈ ks,
        (((r :: rest).filter (fun x => decide (key x = k))).map f).sum =
          (if key r = k then
            f r + ((rest.filter (fun x => decide (key x = k))).map f).sum
          else ((rest.filter (fun x => decide (key x = k))).map f).sum) := by
      intro k _
      by_cases hk : key r = k
      · rw [if_pos hk]
        simp [List.filter_cons, hk]
      · rw [if_neg hk]
        simp [List.filter_cons, hk]
    rw [List.map_congr_left hpt,
      sum_if_single (fun k => ((rest.filter (fun x => decide (key x = k))).map f).sum)
        (f r) (key r) ks hnd hr,
      ih ks hnd hrest]
    simp

/-- C1: on any non-empty clean-shaped table in which every row carries a
non-null year_month bucket, build_monthly_summary succeeds and the sum of
its total_revenue column equals the sum of the revenue column of the input
(null revenue contributing nothing to either side); the floating-point
statement becomes exact equality over the rationals. -/
theorem monthly_summary_conserves_revenue (df : DF)
    (hne : df.rows ≠ []) (hym : "year_month" ∈ df.columns)
    (hcols : "revenue" ∈ df.columns ∧ "order_id" ∈ df.columns ∧ "customer_id" ∈ df.columns)
    (hbucket : ∀ r ∈ df.rows, getCell r "year_month" ≠ Cell.null) :
    ∃ m, build_monthly_summary df = .ok m ∧
      sumCol (colVals m "total_revenue") = sumCol (colVals df "revenue") := by
  unfold build_monthly_summary
  rw [if_neg (by push_neg; exact ⟨hym, hne⟩), if_pos hcols]
  refine ⟨_, rfl, ?_⟩
  have hcv : colVals
      ⟨monthlyColumns (decide ("cost" ∈ df.columns)) (decide ("marketing_spend" ∈ df.columns)),
       (groupKeys (colVals df "year_month")).map
         (monthlyRow df (decide ("cost" ∈ df.columns)) (decide ("marketing_spend" ∈ df.columns)))⟩
      "total_revenue" =
      (groupKeys (colVals df "year_month")).map (fun k =>
        Cell.num (sumCol ((groupRows df "year_month" k).map (fun r => getCell r "revenue")))) := by
    unfold colVals
    rw [List.map_map]
    exact List.map_congr_left (fun k _ => monthlyRow_total_revenue df _ _ k)
  rw [hcv, sumCol_map_num]
  have hsum : ∀ k, sumCol ((groupRows df "year_month" k).map (fun r => getCell r "revenue")) =
      ((groupRows df "year_month" k).map
        (fun r => (cellNum? (getCell r "revenue")).getD 0)).sum := by
    intro k
    rw [sumCol_eq_sum_getD, List.map_map]
    rfl
  rw [List.map_congr_left (fun k _ => hsum k), sumCol_eq_sum_getD]
  unfold colVals
  rw [List.map_map]
  exact sum_over_groups (fun r => getCell r "year_month")
    (fun r => (cellNum? (getCell r "revenue")).getD 0) df.rows
    (groupKeys (colVals df "year_month"))
    (groupKeys_nodup _)
    (fun r hr => groupKeys_complete
      (by exact List.mem_map.mpr ⟨r, hr, rfl⟩) (hbucket r hr))

/-- Witness for C1 on a three-row table with two months and a null
revenue. -/
theorem monthly_summary_conserves_revenue_witness :
    ∃ m, build_monthly_summary dfConserve = .ok m ∧
      sumCol (colVals m "total_revenue") = sumCol (colVals dfConserve "revenue") :=
  monthly_summary_conserves_revenue dfConserve (by decide) (by decide)
    ⟨by decide, by decide, by decide⟩ (by decide)

/-! ### Claims C6 and C10: month-over-month growth -/

/-- Helper: what a successful, nonempty monthly build reveals about its
input and output. -/
theorem build_ok_struct {df mdf : DF} (h : build_monthly_summary df = .ok mdf)
    (hne : mdf.rows ≠ []) :
    df.rows ≠ [] ∧ "year_month" ∈ df.columns ∧
    ("revenue" ∈ df.columns ∧ "order_id" ∈ df.columns ∧ "customer_id" ∈ df.columns) ∧
    mdf.columns =
      monthlyColumns (decide ("cost" ∈ df.columns)) (decide ("marketing_spend" ∈ df.columns)) ∧
    mdf.rows = (groupKeys (colVals df "year_month")).map
      (monthlyRow df (decide ("cost" ∈ df.columns)) (decide ("marketing_spend" ∈ df.columns))) := by
  unfold build_monthly_summary at h
  split at h
  · cases h
    exact absurd rfl hne
  · next hguard =>
    push_neg at hguard
    split at h
    · next hcols =>
      cases h
      exact ⟨hguard.2, hguard.1, hcols, rfl, rfl⟩
    · cases h

/-- Helper: every row of a successful, nonempty monthly build has a numeric
total_revenue cell. -/
theorem build_ok_row_num {df mdf : DF} (h : build_monthly_summary df = .ok mdf)
    (hne : mdf.rows ≠ []) {r : Row} (hr : r ∈ mdf.rows) :
    ∃ q, getCell r "total_revenue" = Cell.num q := by
  obtain ⟨-, -, -, -, hrows⟩ := build_ok_struct h hne
  rw [hrows] at hr
  obtain ⟨k, -, rfl⟩ := List.mem_map.mp hr
  exact ⟨_, monthlyRow_total_revenue _ _ _ _⟩

/-- Helper: the month-over-month field of compute_kpis on a built monthly
summary, by the shape of the reversed monthly rows. -/
theorem compute_kpis_of_build {cdf mdf : DF} (h : build_monthly_summary cdf = .ok mdf) :
    (mdf.rows = [] → compute_kpis cdf mdf = .ok _empty_kpis) ∧
    (∀ lastR restRev, mdf.rows.reverse = lastR :: restRev →
      ∃ k, compute_kpis cdf mdf = .ok k ∧
        k.mom_revenue_growth = (match restRev with
          | prevR :: _ =>
            some (round2 (safePctChangeCells (getCell lastR "total_revenue")
              (getCell prevR "total_revenue")))
          | [] => none)) := by
  constructor
  · intro hempty
    unfold compute_kpis
    rw [if_pos (Or.inr hempty)]
  · intro lastR restRev hrev
    have hne : mdf.rows ≠ [] := by
      intro hnil
      rw [hnil] at hrev
      cases hrev
    obtain ⟨hcne, hym, ⟨hrev', hoid, hcid⟩, hcols, hrows⟩ := build_ok_struct h hne
    have hlast : lastR ∈ mdf.rows := by
      have : lastR ∈ mdf.rows.reverse := by
        rw [hrev]
        exact List.mem_cons_self _ _
      exact List.mem_reverse.mp this
    obtain ⟨q, hq⟩ := build_ok_row_num h hne hlast
    unfold compute_kpis
    rw [if_neg (by push_neg; exact ⟨hcne, hne⟩)]
    rw [if_neg (not_not.mpr hrev')]
    rw [if_neg (by
      push_neg
      constructor
      · rw [hcols]
        simp [monthlyColumns]
      · rw [hcols]
        simp [monthlyColumns])]
    simp only [hrev, hq, cellNum?]
    exact ⟨_, rfl, rfl⟩

/-- C6: compute_kpis on a built monthly summary sets mom_revenue_growth to
null (not 0) when the summary has fewer than two rows, and to the rounded
safe percentage change of the last two monthly total_revenue values
otherwise. -/
theorem mom_growth_spec (cdf mdf : DF) (h : build_monthly_summary cdf = .ok mdf) :
    (mdf.rows.length < 2 →
      ∃ k, compute_kpis cdf mdf = .ok k ∧ k.mom_revenue_growth = none) ∧
    (∀ lastR prevR rest, mdf.rows.reverse = lastR :: prevR :: rest →
      ∃ k, compute_kpis cdf mdf = .ok k ∧
        k.mom_revenue_growth =
          some (round2 (safePctChangeCells (getCell lastR "total_revenue")
            (getCell prevR "total_revenue")))) := by
  constructor
  · intro hlen
    rcases hrows : mdf.rows with - | ⟨a, rest⟩
    · exact ⟨_empty_kpis, (compute_kpis_of_build h).1 hrows, rfl⟩
    · rcases rest with - | ⟨b, rest2⟩
      · obtain ⟨k, hk, hmom⟩ := (compute_kpis_of_build h).2 a [] (by rw [hrows]; rfl)
        exact ⟨k, hk, hmom⟩
      · rw [hrows] at hlen
        simp at hlen
        omega
  · intro lastR prevR rest hrev
    obtain ⟨k, hk, hmom⟩ := (compute_kpis_of_build h).2 lastR (prevR :: rest) hrev
    exact ⟨k, hk, hmom⟩

/-- Helper: rounding an integer to two decimals is the identity. -/
theorem round2_intCast (n : ℤ) : round2 ((n : ℚ)) = (n : ℚ) := by
  have h1 : (n : ℚ) * 100 = ((n * 100 : ℤ) : ℚ) := by push_cast; ring
  simp only [round2, h1, Int.floor_intCast, sub_self]
  rw [if_pos (by norm_num)]
  push_cast
  field_simp

/-- Witness for C6: two months of revenue 1000 and 1200 give a growth of
20 percent, and a single-month summary gives null. -/
theorem mom_growth_spec_witness :
    (∃ k, compute_kpis dfTwoMonths mdfTwoMonths = .ok k ∧
      k.mom_revenue_growth = some 20) ∧
    (∃ k, compute_kpis dfEmptyCols emptyDF = .ok k ∧ k.mom_revenue_growth = none) := by
  have hb : build_monthly_summary dfTwoMonths = .ok mdfTwoMonths := by
    simp [build_monthly_summary, monthlyColumns, monthlyRow, groupKeys, colVals, groupRows,
      sumCol, countCol, nuniqueCol, cellNum?, getCell, round2, safe_divide, mdfTwoMonths,
      dfTwoMonths, emptyDF, List.insertionSort, List.orderedInsert, cellLeP, cellLe, strLeB,
      charListLe, charLt]
    norm_num
  constructor
  · obtain ⟨k, hk, hmom⟩ := (mom_growth_spec dfTwoMonths mdfTwoMonths hb).2
      mdfTwoMonths.rows[1] mdfTwoMonths.rows[0] [] rfl
    refine ⟨k, hk, ?_⟩
    rw [hmom]
    have hc1 : getCell mdfTwoMonths.rows[1] "total_revenue" = Cell.num 1200 := by decide
    have hc0 : getCell mdfTwoMonths.rows[0] "total_revenue" = Cell.num 1000 := by decide
    rw [hc1, hc0]
    have hp : safePctChangeCells (Cell.num 1200) (Cell.num 1000) = 20 := by
      norm_num [safePctChangeCells, cellNum?, safe_pct_change]
    rw [hp]
    have h20 : round2 (20 : ℚ) = 20 := by
      have := round2_intCast 20
      norm_num at this
      exact this
    rw [h20]
  · have hb0 : build_monthly_summary dfEmptyCols = .ok emptyDF :=
      monthly_guard dfEmptyCols (Or.inr rfl)
    obtain ⟨k, hk, hmom⟩ := (mom_growth_spec dfEmptyCols emptyDF hb0).1 (by decide)
    exact ⟨k, hk, hmom⟩

/-- C10 (implicit): on a built monthly summary with at least two rows whose
previous month has total_revenue 0, compute_kpis reports
mom_revenue_growth = 0 (the safe_pct_change default), not null and not an
error, so a growth measured against a zero-revenue base month is
indistinguishable from zero growth. -/
theorem mom_growth_zero_base (cdf mdf : DF) (h : build_monthly_summary cdf = .ok mdf)
    (lastR prevR : Row) (rest : List Row)
    (hrev : mdf.rows.reverse = lastR :: prevR :: rest)
    (hprev : getCell prevR "total_revenue" = Cell.num 0) :
    ∃ k, compute_kpis cdf mdf = .ok k ∧ k.mom_revenue_growth = some 0 := by
  have hne : mdf.rows ≠ [] := by
    intro hnil
    rw [hnil] at hrev
    cases hrev
  obtain ⟨k, hk, hmom⟩ := (compute_kpis_of_build h).2 lastR (prevR :: rest) hrev
  refine ⟨k, hk, ?_⟩
  have hmom' : k.mom_revenue_growth =
      some (round2 (safePctChangeCells (getCell lastR "total_revenue")
        (getCell prevR "total_revenue"))) := hmom
  rw [hmom', hprev]
  have hz : ∀ c, safePctChangeCells c (Cell.num 0) = 0 := by
    intro c
    cases c <;> simp [safePctChangeCells, cellNum?, safe_pct_change]
  rw [hz]
  norm_num [round2]

/-- Witness for C10: a first month of revenue 0 followed by one of 500
yields a reported growth of 0. -/
theorem mom_growth_zero_base_witness :
    ∃ k, compute_kpis dfZeroBase mdfZeroBase = .ok k ∧
      k.mom_revenue_growth = some 0 := by
  have hb : build_monthly_summary dfZeroBase = .ok mdfZeroBase := by
    simp [build_monthly_summary, monthlyColumns, monthlyRow, groupKeys, colVals, groupRows,
      sumCol, countCol, nuniqueCol, cellNum?, getCell, round2, safe_divide, mdfZeroBase,
      dfZeroBase, emptyDF, List.insertionSort, List.orderedInsert, cellLeP, cellLe, strLeB,
      charListLe, charLt]
    norm_num
  exact mom_growth_zero_base dfZeroBase mdfZeroBase hb
    mdfZeroBase.rows[1] mdfZeroBase.rows[0] [] rfl (by decide)

/-! ### Claim C7 -/

/-- C7: an empty clean table yields empty summaries from all three
aggregations and a fully-populated default KPI mapping from compute_kpis
(also when only the monthly summary is empty), with no error anywhere on
the path; the default mapping carries every KPI field with its zero or
null value. -/
theorem empty_input_safety (df mdf : DF) (segc : String) :
    (df.rows = [] →
      build_monthly_summary df = .ok emptyDF ∧
      build_segment_summary df segc = .ok emptyDF ∧
      build_daily_summary df = .ok emptyDF ∧
      compute_kpis df mdf = .ok _empty_kpis) ∧
    (mdf.rows = [] → compute_kpis df mdf = .ok _empty_kpis) ∧
    (_empty_kpis.total_revenue = 0 ∧ _empty_kpis.total_orders = 0 ∧
     _empty_kpis.unique_customers = 0 ∧ _empty_kpis.avg_order_value = 0 ∧
     _empty_kpis.revenue_per_customer = 0 ∧
     _empty_kpis.latest_month = Cell.str "N/A" ∧
     _empty_kpis.latest_month_revenue = 0 ∧
     _empty_kpis.mom_revenue_growth = none ∧ _empty_kpis.total_cost = none ∧
     _empty_kpis.gross_margin = none ∧ _empty_kpis.total_marketing_spend = none ∧
     _empty_kpis.roas = none ∧ _empty_kpis.total_months = 0 ∧
     _empty_kpis.orders_per_customer = 0) := by
  refine ⟨fun h => ⟨?_, ?_, ?_, ?_⟩, fun h => ?_, by decide⟩
  · exact monthly_guard df (Or.inr h)
  · exact segment_guard df segc (Or.inr h)
  · exact daily_guard df (Or.inr h)
  · exact kpis_empty_guard df mdf (Or.inl h)
  · exact kpis_empty_guard df mdf (Or.inr h)

/-- Witness for C7 at a concrete empty clean table (with a nonempty and an
empty monthly table). -/
theorem empty_input_safety_witness :
    build_monthly_summary dfEmptyCols = .ok emptyDF ∧
    compute_kpis dfEmptyCols dfOneMonth = .ok _empty_kpis ∧
    compute_kpis dfOneMonth dfEmptyCols = .ok _empty_kpis := by
  refine ⟨?_, ?_, ?_⟩
  · exact ((empty_input_safety dfEmptyCols dfOneMonth "channel").1 rfl).1
  · exact ((empty_input_safety dfEmptyCols dfOneMonth "channel").1 rfl).2.2.2
  · exact (empty_input_safety dfOneMonth dfEmptyCols "channel").2.1 rfl

end Spec2Proof
